import Mathlib

/-!
Verification of the YouTube Music history scrobbler
(`youtube_music_history.py`).

The script is embedded shallowly:

* strings are Lean `String`s, but every operation the Python code performs
  on them (`in`, `split`, `replace`, slicing) is re-implemented by
  structural recursion over `List Char` so that all definitions evaluate
  inside the kernel;
* the polymorphic `subtitles` JSON field is a small inductive capturing the
  shapes the code distinguishes (`list`-of-objects, bare object, opaque
  fallback, and falsy/absent values);
* the stateful enrichment pass (`fetch_album_info` and its helpers) is a
  step function over an explicit process state, with the external
  `ytmusicapi` client modelled as an oracle (`Env`); exceptions raised by
  the Python code are modelled with `Except`;
* instrumentation that the claims talk about (progress prints, error
  prints, which catalog calls were made) is accumulated in the fold state.
-/

namespace YTM

/-! ## String primitives (kernel-computable counterparts of the Python ops) -/

/-- Substring test: Python's `pat in hay` on strings, over char lists. -/
def listContainsSub (pat : List Char) : List Char → Bool
  | [] => pat.isEmpty
  | c :: rest => pat.isPrefixOf (c :: rest) || listContainsSub pat rest

/-- Python `pat in hay` for strings. -/
def strContains (hay pat : String) : Bool := listContainsSub pat.data hay.data

/-- Characters before the first occurrence of `sep` (Python `s.split(sep)[0]`
for a one-character separator). -/
def takeUntil (sep : Char) : List Char → List Char
  | [] => []
  | c :: rest => if c = sep then [] else c :: takeUntil sep rest

/-- Characters after the last occurrence of `sep` (Python `s.split(sep)[-1]`
for a one-character separator; the whole string when `sep` is absent). -/
def lastSegAfter (sep : Char) (l : List Char) : List Char :=
  (takeUntil sep l.reverse).reverse

/-- Left-to-right, non-overlapping replacement of `pat` by `rep`
(Python `str.replace`).  Fuelled so that the recursion is structural; with
fuel `≥ length + 1` and a non-empty pattern it is the exact semantics. -/
def listReplaceFuel (pat rep : List Char) : Nat → List Char → List Char
  | 0, l => l
  | _ + 1, [] => []
  | fuel + 1, c :: rest =>
    if pat.isPrefixOf (c :: rest) then
      rep ++ listReplaceFuel pat rep fuel ((c :: rest).drop pat.length)
    else c :: listReplaceFuel pat rep fuel rest

/-- Python `s.replace(pat, rep)` (for the non-empty patterns the script uses). -/
def pyReplace (s pat rep : String) : String :=
  ⟨listReplaceFuel pat.data rep.data (s.data.length + 1) s.data⟩

/-- Python `s[:n]` for a non-negative bound, by characters. -/
def pyTake (s : String) (n : Nat) : String := ⟨s.data.take n⟩

/-- Python `s[n:m]` slicing with non-negative bounds, by characters. -/
def pySlice (s : String) (n m : Nat) : String := ⟨(s.data.take m).drop n⟩

/-- Character length of a string (Python `len`). -/
def strLen (s : String) : Nat := s.data.length

/-! ## Data model: history records and Listens -/

/-- String-valued JSON object, e.g. one element of a `subtitles` list. -/
abbrev Dict := List (String × String)

/-- Python `d.get(k, dflt)` on a string-valued object. -/
def dictGetD (d : Dict) (k dflt : String) : String :=
  match d.find? (fun p => p.1 == k) with
  | some p => p.2
  | none => dflt

/-- The shapes of the `subtitles` field that `extract_artist_name`
distinguishes.  `falsy` stands for an absent field or any falsy value
(`None`, `[]`, `{}`, `""`, `0`, `False`), for which the guard
`if not item.get("subtitles")` returns `None`.  `other` stands for a truthy
value that is neither a list nor a dict, carrying its `json.dumps`
serialization. -/
inductive Subtitles where
  | falsy : Subtitles
  | list (items : List Dict) : Subtitles
  | obj (fields : Dict) : Subtitles
  | other (dumped : String) : Subtitles
deriving DecidableEq, Repr

/-- One raw watch-history record, restricted to the fields the script reads.
A missing string field is represented by `""` (for `header` this is
faithful because the code only compares it against `"YouTube Music"`;
for `title`/`titleUrl`/`time` the code itself substitutes `""`). -/
structure HistoryItem where
  header : String
  subtitles : Subtitles
  title : String
  titleUrl : String
  time : String
deriving DecidableEq, Repr

/-- A parsed Listen (the dict built by `process_history_data`), plus the
`albumName` key that enrichment may add later (`none` = key absent). -/
structure Song where
  artistName : String
  trackName : String
  ts : String
  id : String
  isLibraryUpload : Bool
  albumName : Option String
deriving DecidableEq, Repr

instance : Inhabited Song := ⟨⟨"", "", "", "", false, none⟩⟩

/-- `extract_artist_name` (lines 66–84): pull a raw channel label out of the
polymorphic `subtitles` field.  An empty list / empty dict is falsy in
Python, so the leading guard returns `None` for them; a non-dict truthy
value falls through to the `json.dumps` heuristic, which is used only when
the dump contains a comma and takes `split(",")[0][10:-1]`. -/
def extract_artist_name : Subtitles → Option String
  | .falsy => none
  | .list [] => none
  | .list (d :: _) => some (dictGetD d "name" "")
  | .obj [] => none
  | .obj fields => some (dictGetD fields "name" "")
  | .other dumped =>
    if strContains dumped "," then
      some (pySlice ⟨takeUntil ',' dumped.data⟩ 10 ((takeUntil ',' dumped.data).length - 1))
    else none

/-- The quote clean-up on line 104: two successive
`replace('\\"', '"')` passes (both Python literals denote the two-character
sequence backslash-quote). -/
def cleanQuotes (s : String) : String :=
  pyReplace (pyReplace s "\\\"" "\"") "\\\"" "\""

/-- The body of the `process_history_data` loop (lines 90–118) for a single
record: `none` when the record is filtered out, `some song` when a Listen
is appended. -/
def parseItem (item : HistoryItem) : Option Song :=
  if item.header ≠ "YouTube Music" then none
  else
    match extract_artist_name item.subtitles with
    | none => none
    | some raw =>
      if raw = "" then none
      else if ¬(strContains raw " - Topic" = true ∨ strContains raw "Music Library Uploads" = true) then none
      else
        some
          { artistName :=
              cleanQuotes (if strContains raw " - Topic" then pyTake raw (strLen raw - 8) else raw)
            trackName := pyReplace item.title "Watched " ""
            ts := item.time
            id := if item.titleUrl ≠ "" then ⟨lastSegAfter '=' item.titleUrl.data⟩ else ""
            isLibraryUpload := strContains raw "Music Library Uploads"
            albumName := none }

/-- `process_history_data` (lines 86–120): the ordered Listen sequence. -/
def process_history_data (items : List HistoryItem) : List Song :=
  items.filterMap parseItem

/-! ## Output writer and command-line filters -/

/-- A JSON scalar appearing as a value of a serialized Listen. -/
inductive JVal where
  | s (x : String)
  | b (x : Bool)
deriving DecidableEq, Repr

/-- The key/value sequence of a Listen dict, in Python insertion order:
the five parse-time keys, then `albumName` iff enrichment added it. -/
def songDict (sng : Song) : List (String × JVal) :=
  [("artistName", .s sng.artistName), ("trackName", .s sng.trackName),
   ("ts", .s sng.ts), ("id", .s sng.id), ("isLibraryUpload", .b sng.isLibraryUpload)] ++
    (match sng.albumName with
     | some al => [("albumName", .s al)]
     | none => [])

/-- Python `dict.pop(k, None)`: drop the key if present. -/
def popKey (k : String) (d : List (String × JVal)) : List (String × JVal) :=
  d.filter (fun p => p.1 != k)

/-- `finalize_data` (lines 291–300): strip the temporary `id` and
`isLibraryUpload` keys from every item. -/
def finalize_data (songs : List Song) : List (List (String × JVal)) :=
  songs.map (fun sng => popKey "isLibraryUpload" (popKey "id" (songDict sng)))

/-- `write_output_files` (lines 302–313) as the list of (filename, contents)
pairs it writes: one `formatted.json` below the 2800 threshold, otherwise
one numbered file per chunk of `range(0, len, 2800)`. -/
def write_output_files {α : Type} (songs : List α) : List (String × List α) :=
  if songs.length < 2800 then [("formatted.json", songs)]
  else
    (List.range ((songs.length + 2799) / 2800)).map
      (fun i => ("formatted-" ++ toString (i + 1) ++ ".json",
                 (songs.drop (2800 * i)).take 2800))

/-! ## Enrichment engine state machine -/

/-- The `album` field of a library upload record: either a nested object
(whose `name` is read with default `""`) or a flat value read with default
`""` (`find_upload_match`, lines 171–176). -/
inductive AlbumField where
  | objNamed (name : String)
  | flat (s : String)
deriving DecidableEq, Repr

/-- One record of the library-uploads snapshot, restricted to the fields
`find_upload_match` reads.  `artists` is the list of artist names (an
artist object without a `name` contributes `""`); an absent or empty
`artists` field is the empty list, for which the code substitutes
`"Unknown"`. -/
structure Upload where
  videoId : String
  artists : List String
  album : AlbumField
deriving DecidableEq, Repr

/-- The dict returned by `find_upload_match` (lines 178–182). -/
structure UploadMatch where
  albumName : String
  videoId : String
  artistName : String
deriving DecidableEq, Repr

/-- One result of `ytmusic.search`, restricted to the fields
`process_regular_song` reads.
`album = none`: no `album` key; `album = some none`: an `album` value on
which `['name']` raises; `album = some (some n)`: album name `n`.
`artists = none`: no `artists` key; `artists = some l`: the artist names
(`result['artists'][0]['name']` raises when `l = []`). -/
structure SearchResult where
  album : Option (Option String)
  artists : Option (List String)
deriving DecidableEq, Repr

/-- A value stored in the persistent API cache: either an object (a match
entry) or an array (the library-uploads snapshot under the sentinel key). -/
inductive CacheVal where
  | obj (fields : Dict)
  | arr (uploads : List Upload)
deriving DecidableEq, Repr

/-- Python `k in v` for a cache value: key lookup on a dict; on a list it
compares the string against each element, and an upload object never
equals a string, so it is `false`. -/
def cacheHasKey : CacheVal → String → Bool
  | .obj fields, k => fields.any (fun p => p.1 == k)
  | .arr _, _ => false

/-- Python `v[k]` on an object cache value (callers guard with
`cacheHasKey`); `""` as an out-of-domain default. -/
def cacheValGet : CacheVal → String → String
  | .obj fields, k => dictGetD fields k ""
  | .arr _, _ => ""

/-- The API cache as an association list; later inserts shadow earlier
entries. -/
abbrev Cache := List (String × CacheVal)

/-- Dict lookup (Python `k in d` / `d[k]` combined). -/
def cacheLookup (c : Cache) (k : String) : Option CacheVal :=
  (c.find? (fun p => p.1 == k)).map (fun p => p.2)

/-- Dict update `d[k] = v`. -/
def cacheInsert (c : Cache) (k : String) (v : CacheVal) : Cache :=
  (k, v) :: c

/-- The external `ytmusicapi` collaborator and the auth mode fixed in
`__init__`: `search` and `get_library_upload_songs` may raise
(`Except.error`). -/
structure Env where
  authenticated : Bool
  search : String → Except String (List SearchResult)
  fetchLibraryUploads : Except String (List Upload)

/-- The processor's mutable state: the song list and the cache/bookkeeping
attributes set up in `__init__`/`load_cache`.  `libraryFetchCalls` counts
invocations of the client's library-snapshot operation (instrumentation
for the claims; not a Python attribute). -/
structure PState where
  songs : List Song
  api_cache : Cache
  queried_ids : List String
  successful_api_count : Nat
  library_uploads_cache : Option CacheVal
  libraryFetchCalls : Nat
deriving DecidableEq, Repr

/-- The state after `__init__` + `load_cache` + `process_history_data` (plus
any `--limit`/`--only-uploads` filtering): `queried_ids` is the loaded
cache's key set (line 42). -/
def initState (songs : List Song) (loadedCache : Cache) : PState :=
  { songs := songs
    api_cache := loadedCache
    queried_ids := loadedCache.map (fun p => p.1)
    successful_api_count := 0
    library_uploads_cache := none
    libraryFetchCalls := 0 }

/-- `self.songs[i]` (indices stay in range throughout the loop). -/
def songAt (st : PState) (i : Nat) : Song := st.songs.getD i default

/-- In-place update of `self.songs[i]`. -/
def updateSong (st : PState) (i : Nat) (f : Song → Song) : PState :=
  { st with songs := st.songs.set i (f (songAt st i)) }

/-- `self.successful_api_count += 1` (lines 142, 212). -/
def bumpApiCount (st : PState) : PState :=
  { st with successful_api_count := st.successful_api_count + 1 }

/-- `self.api_cache[k] = v` (lines 146, 224–227). -/
def withCacheEntry (st : PState) (k : String) (v : CacheVal) : PState :=
  { st with api_cache := cacheInsert st.api_cache k v }

/-- The success bookkeeping of the enrichment loop (lines 264–269):
`self.queried_ids.add(song_id)` and `self.api_cache[song_id] = v`. -/
def recordSuccess (st : PState) (sid : String) (v : CacheVal) : PState :=
  { st with
      queried_ids := sid :: st.queried_ids
      api_cache := cacheInsert st.api_cache sid v }

@[simp] theorem bumpApiCount_songs (st : PState) : (bumpApiCount st).songs = st.songs := rfl

@[simp] theorem bumpApiCount_cache (st : PState) :
    (bumpApiCount st).api_cache = st.api_cache := rfl

@[simp] theorem bumpApiCount_queried (st : PState) :
    (bumpApiCount st).queried_ids = st.queried_ids := rfl

@[simp] theorem bumpApiCount_libcalls (st : PState) :
    (bumpApiCount st).libraryFetchCalls = st.libraryFetchCalls := rfl

@[simp] theorem songAt_bumpApiCount (st : PState) (j : Nat) :
    songAt (bumpApiCount st) j = songAt st j := rfl

@[simp] theorem withCacheEntry_songs (st : PState) (k : String) (v : CacheVal) :
    (withCacheEntry st k v).songs = st.songs := rfl

@[simp] theorem withCacheEntry_cache (st : PState) (k : String) (v : CacheVal) :
    (withCacheEntry st k v).api_cache = cacheInsert st.api_cache k v := rfl

@[simp] theorem withCacheEntry_queried (st : PState) (k : String) (v : CacheVal) :
    (withCacheEntry st k v).queried_ids = st.queried_ids := rfl

@[simp] theorem withCacheEntry_libcalls (st : PState) (k : String) (v : CacheVal) :
    (withCacheEntry st k v).libraryFetchCalls = st.libraryFetchCalls := rfl

@[simp] theorem withCacheEntry_succ (st : PState) (k : String) (v : CacheVal) :
    (withCacheEntry st k v).successful_api_count = st.successful_api_count := rfl

@[simp] theorem songAt_withCacheEntry (st : PState) (k : String) (v : CacheVal) (j : Nat) :
    songAt (withCacheEntry st k v) j = songAt st j := rfl

@[simp] theorem recordSuccess_songs (st : PState) (sid : String) (v : CacheVal) :
    (recordSuccess st sid v).songs = st.songs := rfl

@[simp] theorem recordSuccess_cache (st : PState) (sid : String) (v : CacheVal) :
    (recordSuccess st sid v).api_cache = cacheInsert st.api_cache sid v := rfl

@[simp] theorem recordSuccess_queried (st : PState) (sid : String) (v : CacheVal) :
    (recordSuccess st sid v).queried_ids = sid :: st.queried_ids := rfl

@[simp] theorem recordSuccess_libcalls (st : PState) (sid : String) (v : CacheVal) :
    (recordSuccess st sid v).libraryFetchCalls = st.libraryFetchCalls := rfl

@[simp] theorem recordSuccess_succ (st : PState) (sid : String) (v : CacheVal) :
    (recordSuccess st sid v).successful_api_count = st.successful_api_count := rfl

@[simp] theorem songAt_recordSuccess (st : PState) (sid : String) (v : CacheVal) (j : Nat) :
    songAt (recordSuccess st sid v) j = songAt st j := rfl

/-- `get_library_uploads` (lines 122–152).  Returns the value the Python
function returns (a `CacheVal`, since a persisted sentinel entry is used
verbatim whatever its shape).  Unauthenticated runs return `[]` before
any cache or client access; a client error is caught and yields `[]`
without setting the memo or the counters. -/
def get_library_uploads (env : Env) (st : PState) : PState × CacheVal :=
  if env.authenticated = false then (st, .arr [])
  else
    match st.library_uploads_cache with
    | some v => (st, v)
    | none =>
      match cacheLookup st.api_cache "library_uploads" with
      | some v => ({ st with library_uploads_cache := some v }, v)
      | none =>
        match env.fetchLibraryUploads with
        | .ok l =>
          ({ st with
              library_uploads_cache := some (.arr l)
              successful_api_count := st.successful_api_count + 1
              api_cache := cacheInsert st.api_cache "library_uploads" (.arr l)
              libraryFetchCalls := st.libraryFetchCalls + 1 }, .arr l)
        | .error _ => ({ st with libraryFetchCalls := st.libraryFetchCalls + 1 }, .arr [])

/-- The artist taken from an upload record (line 169): the first listed
artist, or `"Unknown"` when the record has none. -/
def uploadArtist (u : Upload) : String :=
  match u.artists with
  | [] => "Unknown"
  | a :: _ => a

/-- The album name taken from an upload record (lines 172–176). -/
def albumFieldName : AlbumField → String
  | .objNamed n => n
  | .flat s => s

/-- `find_upload_match` (lines 154–184).  Iterating a dict-shaped snapshot
yields its keys (strings), on which `.get` raises `AttributeError`; an
empty dict iterates zero times and falls through to `None`. -/
def find_upload_match (env : Env) (st : PState) (videoId : String) :
    PState × Except String (Option UploadMatch) :=
  let (st', src) := get_library_uploads env st
  match src with
  | .arr uploads =>
    (st', .ok ((uploads.find? (fun u => videoId == u.videoId)).map
      (fun u => { albumName := albumFieldName u.album
                  videoId := u.videoId
                  artistName := uploadArtist u })))
  | .obj [] => (st', .ok none)
  | .obj (_ :: _) => (st', .error "AttributeError")

/-- `process_library_upload` (lines 186–195). -/
def process_library_upload (env : Env) (st : PState) (i : Nat) :
    PState × Except String Bool :=
  let (st', r) := find_upload_match env st (songAt st i).id
  match r with
  | .error e => (st', .error e)
  | .ok none => (st', .ok false)
  | .ok (some m) =>
    (updateSong st' i
       (fun s => { s with albumName := some m.albumName, artistName := m.artistName }),
     .ok true)

/-- The in-function cache check of `process_regular_song` (lines 202–207):
`some album` exactly when the id is non-empty, cached, and the cached
value has an `albumName` key. -/
def cachedAlbum (st : PState) (sid : String) : Option String :=
  if sid = "" then none
  else
    match cacheLookup st.api_cache sid with
    | some v => if cacheHasKey v "albumName" then some (cacheValGet v "albumName") else none
    | none => none

/-- `process_regular_song` (lines 197–234).  The third component records
whether `ytmusic.search` was invoked.  The `Release` artist-correction
(lines 219–220) runs after the album assignment and raises `IndexError`
on an empty `artists` list, leaving `albumName` already set. -/
def process_regular_song (env : Env) (st : PState) (i : Nat) :
    PState × Except String Bool × Bool :=
  let song := songAt st i
  let sid := song.id
  match cachedAlbum st sid with
  | some alb =>
    (updateSong st i (fun s => { s with albumName := some alb }), .ok true, false)
  | none =>
    match env.search (song.artistName ++ " - " ++ song.trackName) with
    | .error e => (st, .error e, true)
    | .ok results =>
      let st1 := bumpApiCount st
      match results with
      | [] => (st1, .ok false, true)
      | r :: _ =>
        match r.album with
        | none => (st1, .ok false, true)
        | some none => (st1, .error "KeyError", true)
        | some (some album_name) =>
          let st2 := updateSong st1 i (fun s => { s with albumName := some album_name })
          match (if song.artistName = "Release" then r.artists else none) with
          | some [] => (st2, .error "IndexError", true)
          | some (a :: _) =>
            let st3 := updateSong st2 i (fun s => { s with artistName := a })
            let entry : CacheVal :=
              .obj [("albumName", album_name), ("artistName", (songAt st3 i).artistName)]
            let st4 := if sid ≠ "" then withCacheEntry st3 sid entry else st3
            (st4, .ok true, true)
          | none =>
            let entry : CacheVal :=
              .obj [("albumName", album_name), ("artistName", (songAt st2 i).artistName)]
            let st4 := if sid ≠ "" then withCacheEntry st2 sid entry else st2
            (st4, .ok true, true)

/-- The per-item dispatch on `isLibraryUpload` (lines 258–261); the library
path never invokes `search`. -/
def itemResult (env : Env) (st : PState) (i : Nat) :
    PState × Except String Bool × Bool :=
  if (songAt st i).isLibraryUpload then
    let (st', r) := process_library_upload env st i
    (st', r, false)
  else process_regular_song env st i

/-- The guard of the run-start cache check (line 245). -/
def cacheHit (st : PState) (i : Nat) : Prop :=
  (songAt st i).id ≠ "" ∧ (songAt st i).id ∈ st.queried_ids ∧
    (cacheLookup st.api_cache (songAt st i).id).isSome = true

instance instDecCacheHit (st : PState) (i : Nat) : Decidable (cacheHit st i) := by
  unfold cacheHit; exact inferInstance

/-- One progress print (lines 284–285): completed count, total, and the
running `successful_api_count` (the number of successful API requests). -/
structure Progress where
  completed : Nat
  total : Nat
  apiRequests : Nat
deriving DecidableEq, Repr

/-- The fold state of the `fetch_album_info` loop: the processor state, the
`completed_items` counter, and instrumentation for what the loop prints
(progress reports, per-item error logs) and which song ids triggered a
`search` call. -/
structure FetchAcc where
  st : PState
  completed : Nat
  reports : List Progress
  errors : List (Nat × String)
  searchCalledIds : List String
deriving DecidableEq, Repr

/-- One iteration of the `fetch_album_info` loop (lines 241–285).  On a
run-start cache hit the item copies the cached fields, bumps
`completed_items` and `continue`s — skipping the progress print.  Otherwise
the item is resolved; an exception is caught and logged with the item's
index; on success with a non-empty id the id is recorded and the cache
entry rewritten from the song's current fields; finally `completed_items`
is bumped and a progress line is printed every 10th item or on
`completed_items == len(songs)`. -/
def fetchStep (env : Env) (total : Nat) (acc : FetchAcc) (i : Nat) : FetchAcc :=
  let st := acc.st
  let sid := (songAt st i).id
  if cacheHit st i then
    let v := (cacheLookup st.api_cache sid).getD (.obj [])
    let stA :=
      if cacheHasKey v "albumName" then
        updateSong st i (fun s => { s with albumName := some (cacheValGet v "albumName") })
      else st
    let stB :=
      if cacheHasKey v "artistName" then
        updateSong stA i (fun s => { s with artistName := cacheValGet v "artistName" })
      else stA
    { acc with st := stB, completed := acc.completed + 1 }
  else
    let (st', res, called) := itemResult env st i
    let entry : CacheVal :=
      .obj [("albumName", (songAt st' i).albumName.getD ""),
            ("artistName", (songAt st' i).artistName)]
    let st2 :=
      match res with
      | .ok true => if sid ≠ "" then recordSuccess st' sid entry else st'
      | _ => st'
    let errors :=
      match res with
      | .error e => acc.errors ++ [(i, e)]
      | _ => acc.errors
    let completed := acc.completed + 1
    let reports :=
      if completed % 10 = 0 ∨ completed = total then
        acc.reports ++ [⟨completed, total, st2.successful_api_count⟩]
      else acc.reports
    { st := st2
      completed := completed
      reports := reports
      errors := errors
      searchCalledIds := acc.searchCalledIds ++ (if called then [sid] else []) }

/-- Folding the loop body over a list of indices. -/
def fetchLoop (env : Env) (total : Nat) (acc : FetchAcc) (idxs : List Nat) : FetchAcc :=
  idxs.foldl (fetchStep env total) acc

/-- The loop state before any iteration. -/
def initAcc (st : PState) : FetchAcc :=
  { st := st, completed := 0, reports := [], errors := [], searchCalledIds := [] }

/-- The loop of `fetch_album_info` run on the first `n` items. -/
def partialFetch (env : Env) (st : PState) (n : Nat) : FetchAcc :=
  fetchLoop env st.songs.length (initAcc st) (List.range n)

/-- `fetch_album_info` (lines 236–289), up to the final `save_cache` (pure
file I/O) and the hand-off to `finalize_data`. -/
def fetch_album_info (env : Env) (st : PState) : FetchAcc :=
  partialFetch env st st.songs.length

/-- Python `l[:n]` for an arbitrary integer bound. -/
def pythonTake {α : Type} (n : Int) (l : List α) : List α :=
  if 0 ≤ n then l.take n.toNat else l.take (l.length - (-n).toNat)

/-- The `--limit` handling in `main` (lines 341–342): `args.limit` is `None`
when absent, and the guard `if args.limit:` is falsy for both `None` and
`0`, so only a non-zero limit truncates. -/
def applyLimit {α : Type} (limit : Option Int) (l : List α) : List α :=
  match limit with
  | none => l
  | some n => if n = 0 then l else pythonTake n l

/-! ## Basic lemmas about the state operations -/

theorem length_updateSong (st : PState) (i : Nat) (f : Song → Song) :
    (updateSong st i f).songs.length = st.songs.length := by
  simp [updateSong]

theorem songAt_updateSong_self (st : PState) (i : Nat) (f : Song → Song)
    (h : i < st.songs.length) : songAt (updateSong st i f) i = f (songAt st i) := by
  simp [songAt, updateSong, List.getD, List.getElem?_set_self, h]

theorem songAt_updateSong_ne (st : PState) (i j : Nat) (f : Song → Song)
    (h : i ≠ j) : songAt (updateSong st i f) j = songAt st j := by
  simp [songAt, updateSong, List.getD, List.getElem?_set_ne h]

theorem updateSong_oob (st : PState) (i : Nat) (f : Song → Song)
    (h : ¬ i < st.songs.length) : updateSong st i f = st := by
  simp only [updateSong]
  rw [List.set_eq_of_length_le (by omega)]

theorem songAt_updateSong (st : PState) (i : Nat) (f : Song → Song)
    (hf : ∀ s, (f s).id = s.id ∧ (f s).isLibraryUpload = s.isLibraryUpload) (j : Nat) :
    (songAt (updateSong st i f) j).id = (songAt st j).id ∧
      (songAt (updateSong st i f) j).isLibraryUpload = (songAt st j).isLibraryUpload := by
  by_cases hij : i = j
  · subst hij
    by_cases hlen : i < st.songs.length
    · rw [songAt_updateSong_self st i f hlen]
      exact hf _
    · rw [updateSong_oob st i f hlen]
      exact ⟨rfl, rfl⟩
  · rw [songAt_updateSong_ne st i j f hij]
    exact ⟨rfl, rfl⟩

theorem cacheLookup_insert_self (c : Cache) (k : String) (v : CacheVal) :
    cacheLookup (cacheInsert c k v) k = some v := by
  simp [cacheLookup, cacheInsert, List.find?]

theorem cacheLookup_insert_ne (c : Cache) (k k' : String) (v : CacheVal)
    (h : k' ≠ k) : cacheLookup (cacheInsert c k v) k' = cacheLookup c k' := by
  simp only [cacheLookup, cacheInsert, List.find?]
  have : (k == k') = false := by simp [Ne.symm h]
  simp [this]

/-! ## Concrete fixtures used by witnesses and counterexamples -/

/-- The raw record of the parsing scenario in the spec. -/
def exRecord : HistoryItem :=
  { header := "YouTube Music"
    subtitles := .list [[("name", "Foo - Topic")]]
    title := "Watched Bar"
    titleUrl := "http://x?v=abc"
    time := "t1" }

/-- A plain parsed Listen with id `"x"`. -/
def exSongA : Song := ⟨"A", "T", "t1", "x", false, none⟩

/-- A second parsed Listen sharing id `"x"`. -/
def exSongB : Song := ⟨"B", "U", "t2", "x", false, none⟩

/-- A Listen whose artist is the `"Release"` sentinel. -/
def exSongRelease : Song := ⟨"Release", "T", "t1", "x", false, none⟩

/-- A library-upload Listen with id `"x"`. -/
def exSongLib : Song := ⟨"L", "T", "t2", "x", true, none⟩

/-- A Listen whose external id is the reserved sentinel key. -/
def exSongSentinel : Song := ⟨"S", "T", "t1", "library_uploads", false, none⟩

/-- Oracle whose search always returns no results. -/
def envNoResults : Env := ⟨true, fun _ => .ok [], .ok []⟩

/-- Oracle whose search returns one result with album `"Alb"` and artist
`"Z"`. -/
def envAlb : Env := ⟨true, fun _ => .ok [{ album := some (some "Alb"), artists := some ["Z"] }], .ok []⟩

/-- Oracle whose search returns one result with album `"Alb"` and an empty
`artists` list (triggers `IndexError` in the `Release` correction). -/
def envRelease : Env := ⟨true, fun _ => .ok [{ album := some (some "Alb"), artists := some [] }], .ok []⟩

/-- Oracle whose search returns one result carrying no album. -/
def envNoAlbum : Env := ⟨true, fun _ => .ok [{ album := none, artists := none }], .ok []⟩

/-- `envAlb`, but unauthenticated. -/
def envUnauth : Env := ⟨false, fun _ => .ok [{ album := some (some "Alb"), artists := some ["Z"] }], .ok []⟩

/-- A persisted cache holding a match entry for id `"x"`. -/
def exCacheX : Cache := [("x", .obj [("albumName", "CachedAlb"), ("artistName", "CachedArt")])]

/-- A persisted cache holding only the library-uploads snapshot sentinel. -/
def exCacheSentinel : Cache := [("library_uploads", .arr [⟨"v1", ["AA"], .flat "AL"⟩])]

/-! ## C6: the concrete parsing scenario -/

/-- C6: parsing the single record
`{header:"YouTube Music", subtitles:[{name:"Foo - Topic"}], title:"Watched Bar",
titleUrl:"http://x?v=abc", time:"t1"}` produces exactly one Listen
`{artistName:"Foo", trackName:"Bar", ts:"t1", externalId:"abc",
isLibraryUpload:false}`. -/
theorem C6_parse_scenario :
    process_history_data [exRecord] =
      [{ artistName := "Foo", trackName := "Bar", ts := "t1", id := "abc",
         isLibraryUpload := false, albumName := none }] := by
  decide

/-! ## C7: the `--limit` flag -/

/-- C7 counterexample: `--limit 0` does not truncate to the first 0
elements, because `if args.limit:` is falsy for `0`; the run keeps both
Listens instead of none. -/
theorem C7_counterexample :
    applyLimit (some (0 : Int)) [exSongA, exSongB] ≠ [exSongA, exSongB].take 0 ∧
      applyLimit (some (0 : Int)) [exSongA, exSongB] = [exSongA, exSongB] := by
  constructor
  · decide
  · decide

/-- C7 (amended): for every positive natural `N`, running with `--limit N`
truncates the parsed sequence to its first `N` elements (with `--limit 0`
the guard `if args.limit:` is falsy and nothing is truncated). -/
theorem C7_amended {α : Type} (n : Nat) (l : List α) (h : 0 < n) :
    applyLimit (some (n : Int)) l = l.take n := by
  have hn : (n : Int) ≠ 0 := by exact_mod_cast Nat.pos_iff_ne_zero.mp h
  simp only [applyLimit, pythonTake, if_neg hn, if_pos (by positivity : (0:Int) ≤ (n:Int))]
  simp

/-- C7 witness: `--limit 1` with two parsed Listens yields exactly the
first Listen. -/
theorem C7_witness :
    0 < 1 ∧ applyLimit (some (1 : Int)) [exSongA, exSongB] = [exSongA, exSongB].take 1 :=
  ⟨Nat.one_pos, C7_amended 1 [exSongA, exSongB] Nat.one_pos⟩

/-! ## C3: the chunking law of the output writer -/

theorem slices_join {α : Type} :
    ∀ (k : Nat) (l : List α), l.length ≤ 2800 * k →
      ((List.range k).map (fun i => (l.drop (2800 * i)).take 2800)).flatten = l := by
  intro k
  induction k with
  | zero =>
    intro l hl
    simp at hl
    simp [hl]
  | succ k ih =>
    intro l hl
    rw [List.range_succ_eq_map]
    have hfun : ((List.range k).map (fun n => n + 1)).map (fun i => (l.drop (2800 * i)).take 2800) =
        (List.range k).map (fun i => ((l.drop 2800).drop (2800 * i)).take 2800) := by
      rw [List.map_map]
      apply List.map_congr_left
      intro i _
      simp only [Function.comp]
      rw [List.drop_drop]
      congr 2
      ring
    simp only [List.map_cons, hfun, List.flatten_cons, Nat.mul_zero, List.drop_zero]
    rw [ih (l.drop 2800) (by simp; omega)]
    exact List.take_append_drop 2800 l

/-- C3: for every finalized song list of length `N`, the writer emits
exactly `ceil(N / 2800)` files named `formatted-1.json ..` when
`N ≥ 2800`, otherwise exactly one file `formatted.json`, and the
concatenation of the chunk contents in numeric filename order is the full
sequence in original order. -/
theorem C3_chunking {α : Type} (songs : List α) :
    (songs.length < 2800 → write_output_files songs = [("formatted.json", songs)]) ∧
    (2800 ≤ songs.length →
      (write_output_files songs).length = (songs.length + 2799) / 2800 ∧
      (write_output_files songs).map Prod.fst =
        (List.range ((songs.length + 2799) / 2800)).map
          (fun i => "formatted-" ++ toString (i + 1) ++ ".json")) ∧
    ((write_output_files songs).map Prod.snd).flatten = songs := by
  refine ⟨fun h => by simp [write_output_files, h], fun h => ?_, ?_⟩
  · have h' : ¬ songs.length < 2800 := by omega
    constructor
    · simp [write_output_files, h']
    · simp only [write_output_files, if_neg h', List.map_map]
      rfl
  · by_cases h : songs.length < 2800
    · simp [write_output_files, h]
    · simp only [write_output_files, if_neg h, List.map_map]
      have : (Prod.snd ∘ fun i =>
          (("formatted-" ++ toString (i + 1) ++ ".json" : String),
            (songs.drop (2800 * i)).take 2800)) =
          (fun i => (songs.drop (2800 * i)).take 2800) := rfl
      rw [this]
      exact slices_join _ songs (by omega)

/-- C3 witness: a list of 2801 items is written as two files whose
concatenation restores the list. -/
theorem C3_witness :
    2800 ≤ (List.replicate 2801 (0 : Nat)).length ∧
      (write_output_files (List.replicate 2801 (0 : Nat))).length =
        ((List.replicate 2801 (0 : Nat)).length + 2799) / 2800 ∧
      ((write_output_files (List.replicate 2801 (0 : Nat))).map Prod.snd).flatten =
        List.replicate 2801 (0 : Nat) :=
  ⟨by rw [List.length_replicate]; omega, ((C3_chunking (List.replicate 2801 (0 : Nat))).2.1
      (by rw [List.length_replicate]; omega)).1,
    (C3_chunking (List.replicate 2801 (0 : Nat))).2.2⟩

/-! ## C5: field stripping in the final output -/

theorem songDict_stripped (sng : Song) :
    popKey "isLibraryUpload" (popKey "id" (songDict sng)) =
      [("artistName", .s sng.artistName), ("trackName", .s sng.trackName),
       ("ts", .s sng.ts)] ++
        (match sng.albumName with
         | some al => [("albumName", JVal.s al)]
         | none => []) := by
  obtain ⟨a, t, ts, sid, lib, alb⟩ := sng
  cases alb <;> rfl

/-- C5: after finalization no serialized item contains the `id`
(externalId) or `isLibraryUpload` keys; each object carries only
`artistName`, `trackName`, `ts`, and — when resolution succeeded —
`albumName`. -/
theorem C5_field_stripping (songs : List Song) (d : List (String × JVal))
    (hd : d ∈ finalize_data songs) :
    (d.map Prod.fst = ["artistName", "trackName", "ts"] ∨
      d.map Prod.fst = ["artistName", "trackName", "ts", "albumName"]) ∧
    "id" ∉ d.map Prod.fst ∧ "isLibraryUpload" ∉ d.map Prod.fst := by
  simp only [finalize_data, List.mem_map] at hd
  obtain ⟨sng, _, rfl⟩ := hd
  rw [songDict_stripped]
  cases sng.albumName <;> simp

/-- C5 witness: the stripped form of a resolved and an unresolved Listen. -/
theorem C5_witness :
    (popKey "isLibraryUpload" (popKey "id" (songDict exSongA)) ∈ finalize_data [exSongA]) ∧
      "id" ∉ (popKey "isLibraryUpload" (popKey "id" (songDict exSongA))).map Prod.fst :=
  ⟨by decide, (C5_field_stripping [exSongA] _ (by decide)).2.1⟩

/-! ## C4: the parsing filter -/

/-- C4: a raw record yields a Listen iff its header is `"YouTube Music"`
and the raw channel label derived from its subtitles contains the
`" - Topic"` suffix marker or the `"Music Library Uploads"` marker. -/
theorem C4_parsing_filter (item : HistoryItem) :
    (∃ s, parseItem item = some s) ↔
      (item.header = "YouTube Music" ∧
        ∃ raw, extract_artist_name item.subtitles = some raw ∧
          (strContains raw " - Topic" = true ∨
            strContains raw "Music Library Uploads" = true)) := by
  unfold parseItem
  by_cases hh : item.header = "YouTube Music"
  · simp only [hh, ne_eq, not_true_eq_false, if_false]
    cases hex : extract_artist_name item.subtitles with
    | none => simp
    | some raw =>
      by_cases hr : raw = ""
      · subst hr
        have h1 : strContains "" " - Topic" = false := by decide
        have h2 : strContains "" "Music Library Uploads" = false := by decide
        simp [h1, h2]
      · by_cases hc : strContains raw " - Topic" = true ∨
            strContains raw "Music Library Uploads" = true
        · simp [hr, hc]
        · simp [hr, hc]
  · simp [hh]

/-! ## Characterization lemmas for the enrichment helpers -/

theorem glu_songs (env : Env) (st : PState) :
    (get_library_uploads env st).1.songs = st.songs := by
  unfold get_library_uploads
  repeat' split
  all_goals rfl

theorem glu_queried (env : Env) (st : PState) :
    (get_library_uploads env st).1.queried_ids = st.queried_ids := by
  unfold get_library_uploads
  repeat' split
  all_goals rfl

theorem glu_unauth (env : Env) (st : PState) (h : env.authenticated = false) :
    get_library_uploads env st = (st, .arr []) := by
  simp [get_library_uploads, h]

theorem glu_keeps_entry (env : Env) (st : PState) (k : String) (v : CacheVal)
    (hv : cacheLookup st.api_cache k = some v) :
    cacheLookup (get_library_uploads env st).1.api_cache k = some v := by
  unfold get_library_uploads
  by_cases ha : env.authenticated = false
  · rw [if_pos ha]
    exact hv
  · rw [if_neg ha]
    cases hm : st.library_uploads_cache with
    | some v' => exact hv
    | none =>
      cases hc : cacheLookup st.api_cache "library_uploads" with
      | some v' => exact hv
      | none =>
        cases hf : env.fetchLibraryUploads with
        | error e => exact hv
        | ok l =>
          dsimp only
          have hk : k ≠ "library_uploads" := by
            intro he
            rw [he, hc] at hv
            exact Option.noConfusion hv
          rw [cacheLookup_insert_ne _ _ _ _ hk]
          exact hv

theorem fum_state (env : Env) (st : PState) (vid : String) :
    (find_upload_match env st vid).1 = (get_library_uploads env st).1 := by
  unfold find_upload_match
  cases hgl : get_library_uploads env st with
  | mk st' src =>
    cases src with
    | arr l => rfl
    | obj fs => cases fs <;> rfl

theorem fum_songs (env : Env) (st : PState) (vid : String) :
    (find_upload_match env st vid).1.songs = st.songs := by
  rw [fum_state, glu_songs]

theorem fum_queried (env : Env) (st : PState) (vid : String) :
    (find_upload_match env st vid).1.queried_ids = st.queried_ids := by
  rw [fum_state, glu_queried]

theorem fum_keeps_entry (env : Env) (st : PState) (vid : String) (k : String) (v : CacheVal)
    (hv : cacheLookup st.api_cache k = some v) :
    cacheLookup (find_upload_match env st vid).1.api_cache k = some v := by
  rw [fum_state]
  exact glu_keeps_entry env st k v hv

theorem plu_queried (env : Env) (st : PState) (i : Nat) :
    (process_library_upload env st i).1.queried_ids = st.queried_ids := by
  unfold process_library_upload
  cases hf : find_upload_match env st (songAt st i).id with
  | mk st' r =>
    have hq : st'.queried_ids = st.queried_ids := by
      have h := fum_queried env st (songAt st i).id
      rw [hf] at h
      exact h
    cases r with
    | error e => exact hq
    | ok o =>
      cases o with
      | none => exact hq
      | some m => simp [updateSong, hq]

theorem plu_length (env : Env) (st : PState) (i : Nat) :
    (process_library_upload env st i).1.songs.length = st.songs.length := by
  unfold process_library_upload
  cases hf : find_upload_match env st (songAt st i).id with
  | mk st' r =>
    have hs : st'.songs = st.songs := by
      have h := fum_songs env st (songAt st i).id
      rw [hf] at h
      exact h
    cases r with
    | error e => rw [hs]
    | ok o =>
      cases o with
      | none => rw [hs]
      | some m => simp [updateSong, hs]

theorem plu_songAt_ne (env : Env) (st : PState) (i j : Nat) (hij : i ≠ j) :
    songAt (process_library_upload env st i).1 j = songAt st j := by
  unfold process_library_upload
  cases hf : find_upload_match env st (songAt st i).id with
  | mk st' r =>
    have hs : st'.songs = st.songs := by
      have h := fum_songs env st (songAt st i).id
      rw [hf] at h
      exact h
    have hsa : songAt st' j = songAt st j := by simp [songAt, hs]
    cases r with
    | error e => exact hsa
    | ok o =>
      cases o with
      | none => exact hsa
      | some m => rw [songAt_updateSong_ne _ _ _ _ hij, hsa]

theorem plu_keeps_entry (env : Env) (st : PState) (i : Nat) (k : String) (v : CacheVal)
    (hv : cacheLookup st.api_cache k = some v) :
    cacheLookup (process_library_upload env st i).1.api_cache k = some v := by
  unfold process_library_upload
  cases hf : find_upload_match env st (songAt st i).id with
  | mk st' r =>
    have hc : cacheLookup st'.api_cache k = some v := by
      have h := fum_keeps_entry env st (songAt st i).id k v hv
      rw [hf] at h
      exact h
    cases r with
    | error e => exact hc
    | ok o =>
      cases o with
      | none => exact hc
      | some m => simpa [updateSong] using hc

theorem plu_error_song (env : Env) (st : PState) (i : Nat) (e : String)
    (he : (process_library_upload env st i).2 = .error e) :
    songAt (process_library_upload env st i).1 i = songAt st i := by
  unfold process_library_upload at he ⊢
  cases hf : find_upload_match env st (songAt st i).id with
  | mk st' r =>
    rw [hf] at he
    have hs : st'.songs = st.songs := by
      have h := fum_songs env st (songAt st i).id
      rw [hf] at h
      exact h
    cases r with
    | error e' => simp [songAt, hs]
    | ok o => cases o <;> simp at he

theorem plu_ok_song (env : Env) (st : PState) (i : Nat)
    (hlen : i < st.songs.length)
    (he : (process_library_upload env st i).2 = .ok true) :
    ((songAt (process_library_upload env st i).1 i).albumName).isSome = true := by
  unfold process_library_upload at he ⊢
  cases hf : find_upload_match env st (songAt st i).id with
  | mk st' r =>
    rw [hf] at he
    have hs : st'.songs = st.songs := by
      have h := fum_songs env st (songAt st i).id
      rw [hf] at h
      exact h
    cases r with
    | error e' => simp at he
    | ok o =>
      cases o with
      | none => simp at he
      | some m =>
        have hlen' : i < st'.songs.length := by rw [hs]; exact hlen
        rw [songAt_updateSong_self _ _ _ hlen']
        rfl

theorem plu_unauth (env : Env) (st : PState) (i : Nat)
    (h : env.authenticated = false) :
    process_library_upload env st i = (st, .ok false) := by
  unfold process_library_upload find_upload_match
  rw [glu_unauth env st h]
  rfl

theorem plu_libcalls_unauth (env : Env) (st : PState) (i : Nat)
    (h : env.authenticated = false) :
    (process_library_upload env st i).1.libraryFetchCalls = st.libraryFetchCalls := by
  rw [plu_unauth env st i h]

theorem prs_queried (env : Env) (st : PState) (i : Nat) :
    (process_regular_song env st i).1.queried_ids = st.queried_ids := by
  unfold process_regular_song
  dsimp only
  repeat' split
  all_goals simp [updateSong]

theorem prs_length (env : Env) (st : PState) (i : Nat) :
    (process_regular_song env st i).1.songs.length = st.songs.length := by
  unfold process_regular_song
  dsimp only
  repeat' split
  all_goals simp [updateSong]

theorem prs_libcalls (env : Env) (st : PState) (i : Nat) :
    (process_regular_song env st i).1.libraryFetchCalls = st.libraryFetchCalls := by
  unfold process_regular_song
  dsimp only
  repeat' split
  all_goals simp [updateSong]

theorem prs_songAt_ne (env : Env) (st : PState) (i j : Nat) (hij : i ≠ j) :
    songAt (process_regular_song env st i).1 j = songAt st j := by
  unfold process_regular_song
  dsimp only
  repeat' split
  all_goals simp [songAt, updateSong, List.getD, List.getElem?_set_ne hij]

theorem prs_keeps_entry (env : Env) (st : PState) (i : Nat) (k : String) (v : CacheVal)
    (hk : k ≠ (songAt st i).id)
    (hv : cacheLookup st.api_cache k = some v) :
    cacheLookup (process_regular_song env st i).1.api_cache k = some v := by
  unfold process_regular_song
  dsimp only
  repeat' split
  all_goals simp [updateSong, hv, cacheLookup_insert_ne _ _ _ _ hk]

theorem prs_none_entry (env : Env) (st : PState) (i : Nat) (k : String)
    (hk : k ≠ (songAt st i).id)
    (hv : cacheLookup st.api_cache k = none) :
    cacheLookup (process_regular_song env st i).1.api_cache k = none := by
  unfold process_regular_song
  dsimp only
  repeat' split
  all_goals simp [updateSong, hv, cacheLookup_insert_ne _ _ _ _ hk]

theorem prs_ok_album (env : Env) (st : PState) (i : Nat)
    (hlen : i < st.songs.length) :
    (process_regular_song env st i).2.1 = .ok true →
      ((songAt (process_regular_song env st i).1 i).albumName).isSome = true := by
  unfold process_regular_song
  dsimp only
  repeat' split
  all_goals intro he
  any_goals (simp at he)
  all_goals simp [songAt, updateSong, List.getD, List.getElem?_set_self,
    List.length_set, hlen]

theorem prs_error_album (env : Env) (st : PState) (i : Nat)
    (hlen : i < st.songs.length) (e : String) :
    (process_regular_song env st i).2.1 = .error e →
      (songAt (process_regular_song env st i).1 i).albumName = (songAt st i).albumName ∨
        ((songAt st i).artistName = "Release" ∧
          ∃ alb, (songAt (process_regular_song env st i).1 i).albumName = some alb) := by
  unfold process_regular_song
  dsimp only
  repeat' split
  all_goals intro he
  any_goals (simp at he)
  all_goals first
    | (left; simp [songAt]; done)
    | (rename_i alb halb x heq
       have hrel : (songAt st i).artistName = "Release" := by
         by_contra hno
         rw [if_neg hno] at heq
         exact Option.noConfusion heq
       refine Or.inr ⟨hrel, ⟨alb, ?_⟩⟩
       simp [songAt, updateSong, List.getD, List.getElem?_set_self,
         List.length_set, hlen])

/-! ### `itemResult` dispatch lemmas -/

theorem ir_queried (env : Env) (st : PState) (i : Nat) :
    (itemResult env st i).1.queried_ids = st.queried_ids := by
  unfold itemResult
  split
  · cases hp : process_library_upload env st i with
    | mk st' r =>
      have h := plu_queried env st i
      rw [hp] at h
      exact h
  · exact prs_queried env st i

theorem ir_length (env : Env) (st : PState) (i : Nat) :
    (itemResult env st i).1.songs.length = st.songs.length := by
  unfold itemResult
  split
  · cases hp : process_library_upload env st i with
    | mk st' r =>
      have h := plu_length env st i
      rw [hp] at h
      exact h
  · exact prs_length env st i

theorem ir_songAt_ne (env : Env) (st : PState) (i j : Nat) (hij : i ≠ j) :
    songAt (itemResult env st i).1 j = songAt st j := by
  unfold itemResult
  split
  · cases hp : process_library_upload env st i with
    | mk st' r =>
      have h := plu_songAt_ne env st i j hij
      rw [hp] at h
      exact h
  · exact prs_songAt_ne env st i j hij

theorem ir_keeps_entry (env : Env) (st : PState) (i : Nat) (k : String) (v : CacheVal)
    (hk : k ≠ (songAt st i).id)
    (hv : cacheLookup st.api_cache k = some v) :
    cacheLookup (itemResult env st i).1.api_cache k = some v := by
  unfold itemResult
  split
  · cases hp : process_library_upload env st i with
    | mk st' r =>
      have h := plu_keeps_entry env st i k v hv
      rw [hp] at h
      exact h
  · exact prs_keeps_entry env st i k v hk hv

theorem ir_ok_album (env : Env) (st : PState) (i : Nat)
    (hlen : i < st.songs.length) :
    (itemResult env st i).2.1 = .ok true →
      ((songAt (itemResult env st i).1 i).albumName).isSome = true := by
  unfold itemResult
  split
  · cases hp : process_library_upload env st i with
    | mk st' r =>
      intro he
      have h := plu_ok_song env st i hlen
      rw [hp] at h
      exact h he
  · exact prs_ok_album env st i hlen

theorem ir_error_album (env : Env) (st : PState) (i : Nat)
    (hlen : i < st.songs.length) (e : String) :
    (itemResult env st i).2.1 = .error e →
      (songAt (itemResult env st i).1 i).albumName = (songAt st i).albumName ∨
        ((songAt st i).artistName = "Release" ∧
          ∃ alb, (songAt (itemResult env st i).1 i).albumName = some alb) := by
  unfold itemResult
  split
  · cases hp : process_library_upload env st i with
    | mk st' r =>
      intro he
      have h := plu_error_song env st i e
      rw [hp] at h
      left
      rw [h he]
  · exact prs_error_album env st i hlen e

theorem ir_unauth_none_entry (env : Env) (st : PState) (i : Nat) (k : String)
    (hna : env.authenticated = false)
    (hk : k ≠ (songAt st i).id)
    (hv : cacheLookup st.api_cache k = none) :
    cacheLookup (itemResult env st i).1.api_cache k = none := by
  unfold itemResult
  split
  · rw [plu_unauth env st i hna]
    exact hv
  · exact prs_none_entry env st i k hk hv

theorem ir_unauth_libcalls (env : Env) (st : PState) (i : Nat)
    (hna : env.authenticated = false) :
    (itemResult env st i).1.libraryFetchCalls = st.libraryFetchCalls := by
  unfold itemResult
  split
  · rw [plu_unauth env st i hna]
  · exact prs_libcalls env st i

theorem ir_unauth_lib_song (env : Env) (st : PState) (i : Nat)
    (hna : env.authenticated = false)
    (hlib : (songAt st i).isLibraryUpload = true) :
    itemResult env st i = (st, .ok false, false) := by
  unfold itemResult
  rw [if_pos hlib, plu_unauth env st i hna]

theorem songAt_updateSong2 (st : PState) (i : Nat) (f g : Song → Song)
    (hf : ∀ s, (f s).id = s.id ∧ (f s).isLibraryUpload = s.isLibraryUpload)
    (hg : ∀ s, (g s).id = s.id ∧ (g s).isLibraryUpload = s.isLibraryUpload) (j : Nat) :
    (songAt (updateSong (updateSong st i f) i g) j).id = (songAt st j).id ∧
      (songAt (updateSong (updateSong st i f) i g) j).isLibraryUpload =
        (songAt st j).isLibraryUpload := by
  have h1 := songAt_updateSong (updateSong st i f) i g hg j
  have h2 := songAt_updateSong st i f hf j
  exact ⟨h1.1.trans h2.1, h1.2.trans h2.2⟩

theorem prs_id_lib (env : Env) (st : PState) (i j : Nat) :
    (songAt (process_regular_song env st i).1 j).id = (songAt st j).id ∧
      (songAt (process_regular_song env st i).1 j).isLibraryUpload =
        (songAt st j).isLibraryUpload := by
  unfold process_regular_song
  dsimp only
  repeat' split
  all_goals dsimp only
  all_goals try simp only [songAt_withCacheEntry, songAt_bumpApiCount, songAt_recordSuccess]
  all_goals first
    | exact ⟨rfl, rfl⟩
    | exact ⟨trivial, trivial⟩
    | (apply songAt_updateSong <;> exact fun s => ⟨rfl, rfl⟩)
    | (apply songAt_updateSong2 <;> exact fun s => ⟨rfl, rfl⟩)

theorem plu_id_lib (env : Env) (st : PState) (i j : Nat) :
    (songAt (process_library_upload env st i).1 j).id = (songAt st j).id ∧
      (songAt (process_library_upload env st i).1 j).isLibraryUpload =
        (songAt st j).isLibraryUpload := by
  unfold process_library_upload
  cases hf : find_upload_match env st (songAt st i).id with
  | mk st' r =>
    have hs : st'.songs = st.songs := by
      have h := fum_songs env st (songAt st i).id
      rw [hf] at h
      exact h
    have hsa : ∀ m, songAt st' m = songAt st m := by
      intro m
      simp [songAt, hs]
    cases r with
    | error e => exact ⟨by rw [hsa j], by rw [hsa j]⟩
    | ok o =>
      cases o with
      | none => exact ⟨by rw [hsa j], by rw [hsa j]⟩
      | some m =>
        have h := songAt_updateSong st' i
          (fun s => { s with albumName := some m.albumName, artistName := m.artistName })
          (fun s => ⟨rfl, rfl⟩) j
        exact ⟨h.1.trans (by rw [hsa j]), h.2.trans (by rw [hsa j])⟩

theorem ir_id_lib (env : Env) (st : PState) (i j : Nat) :
    (songAt (itemResult env st i).1 j).id = (songAt st j).id ∧
      (songAt (itemResult env st i).1 j).isLibraryUpload =
        (songAt st j).isLibraryUpload := by
  unfold itemResult
  split
  · cases hp : process_library_upload env st i with
    | mk st' r =>
      have h := plu_id_lib env st i j
      rw [hp] at h
      exact h
  · exact prs_id_lib env st i j

/-! ### `fetchStep` lemmas -/

theorem fetchStep_completed (env : Env) (T : Nat) (acc : FetchAcc) (i : Nat) :
    (fetchStep env T acc i).completed = acc.completed + 1 := by
  unfold fetchStep
  dsimp only
  split
  · rfl
  · cases hir : itemResult env acc.st i with
    | mk st' p =>
      cases p with
      | mk res called => rfl

theorem fetchStep_length (env : Env) (T : Nat) (acc : FetchAcc) (i : Nat) :
    (fetchStep env T acc i).st.songs.length = acc.st.songs.length := by
  unfold fetchStep
  dsimp only
  split
  · repeat' split
    all_goals simp [updateSong]
  · cases hir : itemResult env acc.st i with
    | mk st' p =>
      cases p with
      | mk res called =>
        have hl : st'.songs.length = acc.st.songs.length := by
          have h := ir_length env acc.st i
          rw [hir] at h
          exact h
        cases res with
        | error e => exact hl
        | ok b =>
          cases b
          · exact hl
          · dsimp only
            split
            · exact hl
            · exact hl

theorem fetchStep_songAt_ne (env : Env) (T : Nat) (acc : FetchAcc) (i j : Nat)
    (hij : i ≠ j) :
    songAt (fetchStep env T acc i).st j = songAt acc.st j := by
  unfold fetchStep
  dsimp only
  split
  · repeat' split
    all_goals simp [songAt_updateSong_ne _ _ _ _ hij]
  · cases hir : itemResult env acc.st i with
    | mk st' p =>
      cases p with
      | mk res called =>
        have hl : songAt st' j = songAt acc.st j := by
          have h := ir_songAt_ne env acc.st i j hij
          rw [hir] at h
          exact h
        cases res with
        | error e => exact hl
        | ok b =>
          cases b
          · exact hl
          · dsimp only
            split
            · exact hl
            · exact hl

theorem fetchStep_id_lib (env : Env) (T : Nat) (acc : FetchAcc) (i j : Nat) :
    (songAt (fetchStep env T acc i).st j).id = (songAt acc.st j).id ∧
      (songAt (fetchStep env T acc i).st j).isLibraryUpload =
        (songAt acc.st j).isLibraryUpload := by
  unfold fetchStep
  dsimp only
  split
  · repeat' split
    all_goals try simp only [songAt_withCacheEntry, songAt_bumpApiCount, songAt_recordSuccess]
    all_goals first
      | exact ⟨rfl, rfl⟩
      | exact ⟨trivial, trivial⟩
      | (apply songAt_updateSong <;> exact fun s => ⟨rfl, rfl⟩)
      | (apply songAt_updateSong2 <;> exact fun s => ⟨rfl, rfl⟩)
  · cases hir : itemResult env acc.st i with
    | mk st' p =>
      cases p with
      | mk res called =>
        have hl := ir_id_lib env acc.st i j
        rw [hir] at hl
        cases res with
        | error e => exact hl
        | ok b =>
          cases b
          · exact hl
          · dsimp only
            split
            · exact hl
            · exact hl

theorem fetchStep_hit (env : Env) (T : Nat) (acc : FetchAcc) (i : Nat)
    (h : cacheHit acc.st i) :
    (fetchStep env T acc i).st.api_cache = acc.st.api_cache ∧
    (fetchStep env T acc i).st.queried_ids = acc.st.queried_ids ∧
    (fetchStep env T acc i).st.successful_api_count = acc.st.successful_api_count ∧
    (fetchStep env T acc i).st.libraryFetchCalls = acc.st.libraryFetchCalls ∧
    (fetchStep env T acc i).reports = acc.reports ∧
    (fetchStep env T acc i).errors = acc.errors ∧
    (fetchStep env T acc i).searchCalledIds = acc.searchCalledIds := by
  unfold fetchStep
  dsimp only
  rw [if_pos h]
  repeat' split
  all_goals simp [updateSong]

theorem fetchStep_hit_entry (env : Env) (T : Nat) (acc : FetchAcc) (i : Nat)
    (a b : String)
    (h : cacheHit acc.st i)
    (hlen : i < acc.st.songs.length)
    (hv : cacheLookup acc.st.api_cache (songAt acc.st i).id =
      some (.obj [("albumName", a), ("artistName", b)])) :
    songAt (fetchStep env T acc i).st i =
      { songAt acc.st i with albumName := some a, artistName := b } := by
  unfold fetchStep
  dsimp only
  rw [if_pos h, hv]
  have hA : cacheHasKey (CacheVal.obj [("albumName", a), ("artistName", b)]) "albumName" = true := by
    simp [cacheHasKey]
  have hB : cacheHasKey (CacheVal.obj [("albumName", a), ("artistName", b)]) "artistName" = true := by
    simp [cacheHasKey]
  have hga : cacheValGet (CacheVal.obj [("albumName", a), ("artistName", b)]) "albumName" = a := by
    simp [cacheValGet, dictGetD]
  have hgb : cacheValGet (CacheVal.obj [("albumName", a), ("artistName", b)]) "artistName" = b := by
    have hne : (("albumName" : String) == "artistName") = false := by decide
    simp [cacheValGet, dictGetD, List.find?, hne]
  dsimp only [Option.getD]
  simp only [hA, hB, hga, hgb, if_true]
  have l1 : i < (updateSong acc.st i
      (fun s => { s with albumName := some a })).songs.length := by
    rw [length_updateSong]
    exact hlen
  rw [songAt_updateSong_self _ _ _ l1, songAt_updateSong_self _ _ _ hlen]

theorem fetchStep_proc (env : Env) (T : Nat) (acc : FetchAcc) (i : Nat)
    (h : ¬ cacheHit acc.st i) :
    fetchStep env T acc i =
      (let st' := (itemResult env acc.st i).1
       let res := (itemResult env acc.st i).2.1
       let called := (itemResult env acc.st i).2.2
       let sid := (songAt acc.st i).id
       let entry : CacheVal :=
         .obj [("albumName", (songAt st' i).albumName.getD ""),
               ("artistName", (songAt st' i).artistName)]
       let st2 :=
         match res with
         | .ok true => if sid ≠ "" then recordSuccess st' sid entry else st'
         | _ => st'
       { st := st2
         completed := acc.completed + 1
         reports :=
           if (acc.completed + 1) % 10 = 0 ∨ acc.completed + 1 = T then
             acc.reports ++ [⟨acc.completed + 1, T, st2.successful_api_count⟩]
           else acc.reports
         errors :=
           match res with
           | .error e => acc.errors ++ [(i, e)]
           | _ => acc.errors
         searchCalledIds := acc.searchCalledIds ++ (if called then [sid] else []) }) := by
  unfold fetchStep
  dsimp only
  rw [if_neg h]

/-! ### Fold-level lemmas -/

theorem fetchLoop_append (env : Env) (T : Nat) (acc : FetchAcc) (l1 l2 : List Nat) :
    fetchLoop env T acc (l1 ++ l2) = fetchLoop env T (fetchLoop env T acc l1) l2 :=
  List.foldl_append _ _ _ _

theorem fetchLoop_inv (env : Env) (T : Nat) (P : FetchAcc → Prop) :
    ∀ (idxs : List Nat) (acc : FetchAcc),
      (∀ a i, i ∈ idxs → P a → P (fetchStep env T a i)) → P acc →
        P (fetchLoop env T acc idxs) := by
  intro idxs
  induction idxs with
  | nil => intro acc _ h; exact h
  | cons x xs ih =>
    intro acc hstep h
    exact ih _ (fun a i hi => hstep a i (List.mem_cons_of_mem _ hi))
      (hstep acc x (List.mem_cons_self _ _) h)

theorem partialFetch_succ (env : Env) (st : PState) (n : Nat) :
    partialFetch env st (n + 1) =
      fetchStep env st.songs.length (partialFetch env st n) n := by
  unfold partialFetch
  rw [List.range_succ, fetchLoop_append]
  rfl

theorem partialFetch_completed (env : Env) (st : PState) (n : Nat) :
    (partialFetch env st n).completed = n := by
  induction n with
  | zero => rfl
  | succ n ih => rw [partialFetch_succ, fetchStep_completed, ih]

theorem partialFetch_length (env : Env) (st : PState) (n : Nat) :
    (partialFetch env st n).st.songs.length = st.songs.length := by
  induction n with
  | zero => rfl
  | succ n ih => rw [partialFetch_succ, fetchStep_length, ih]

theorem partialFetch_id_lib (env : Env) (st : PState) (n j : Nat) :
    (songAt (partialFetch env st n).st j).id = (songAt st j).id ∧
      (songAt (partialFetch env st n).st j).isLibraryUpload =
        (songAt st j).isLibraryUpload := by
  induction n with
  | zero => exact ⟨rfl, rfl⟩
  | succ n ih =>
    rw [partialFetch_succ]
    have h := fetchStep_id_lib env st.songs.length (partialFetch env st n) n j
    exact ⟨h.1.trans ih.1, h.2.trans ih.2⟩

theorem partialFetch_songAt_le (env : Env) (st : PState) (n j : Nat) (h : n ≤ j) :
    songAt (partialFetch env st n).st j = songAt st j := by
  induction n with
  | zero => rfl
  | succ n ih =>
    rw [partialFetch_succ, fetchStep_songAt_ne env _ _ n j (by omega)]
    exact ih (by omega)

theorem fetch_decompose (env : Env) (st : PState) (k : Nat)
    (h : k ≤ st.songs.length) :
    fetch_album_info env st =
      fetchLoop env st.songs.length (partialFetch env st k)
        (List.range' k (st.songs.length - k)) := by
  unfold fetch_album_info partialFetch
  rw [← fetchLoop_append]
  congr 1
  rw [List.range_eq_range', List.range_eq_range']
  have h2 := List.range'_append 0 k (st.songs.length - k) 1
  simp only [Nat.one_mul, Nat.zero_add] at h2
  rw [h2]
  congr 1
  omega

theorem fetchStep_errors_mono (env : Env) (T : Nat) (acc : FetchAcc) (i : Nat)
    (p : Nat × String) (hp : p ∈ acc.errors) : p ∈ (fetchStep env T acc i).errors := by
  by_cases h : cacheHit acc.st i
  · rw [(fetchStep_hit env T acc i h).2.2.2.2.2.1]
    exact hp
  · rw [fetchStep_proc env T acc i h]
    cases hir : itemResult env acc.st i with
    | mk st' q =>
      cases q with
      | mk res called =>
        dsimp only
        cases res with
        | error e => exact List.mem_append_left _ hp
        | ok b => exact hp

theorem fetchLoop_errors_mono (env : Env) (T : Nat) (idxs : List Nat) (acc : FetchAcc)
    (p : Nat × String) (hp : p ∈ acc.errors) :
    p ∈ (fetchLoop env T acc idxs).errors := by
  induction idxs generalizing acc with
  | nil => exact hp
  | cons x xs ih => exact ih _ (fetchStep_errors_mono env T acc x p hp)

theorem fetchLoop_songAt_frozen (env : Env) (T : Nat) (idxs : List Nat) (acc : FetchAcc)
    (j : Nat) (hj : ∀ l ∈ idxs, l ≠ j) :
    songAt (fetchLoop env T acc idxs).st j = songAt acc.st j := by
  induction idxs generalizing acc with
  | nil => rfl
  | cons x xs ih =>
    have hx : x ≠ j := hj x (List.mem_cons_self _ _)
    rw [fetchLoop]
    rw [List.foldl_cons]
    have := ih (fetchStep env T acc x) (fun l hl => hj l (List.mem_cons_of_mem _ hl))
    rw [fetchLoop] at this
    rw [this, fetchStep_songAt_ne env T acc x j hx]

/-! ## C2: per-item exception containment -/

/-- C2 counterexample: with one Listen whose artist is the `"Release"`
sentinel and a search result carrying an album but an empty `artists`
list, resolving item 0 raises `IndexError` *after* the album assignment:
the error is caught and logged, but item 0 ends the run with `albumName`
set — not unset as the claim states. -/
theorem C2_counterexample :
    (fetch_album_info envRelease (initState [exSongRelease] [])).errors =
      [(0, "IndexError")] ∧
    (songAt (fetch_album_info envRelease (initState [exSongRelease] [])).st 0).albumName =
      some "Alb" ∧
    (songAt (initState [exSongRelease] []) 0).albumName = none := by
  refine ⟨by decide, by decide, by decide⟩

/-- C2 (amended): if resolving item `k` raises an exception inside the
enrichment loop, the exception is caught and logged with index `k`, every
item is still completed (the loop runs to the end, continuing from the
caught state), and item `k` keeps its prior `albumName` — except when the
exception arises in the `Release` artist-correction step after the album
assignment, in which case item `k` ends with the assigned `albumName`
present. -/
theorem C2_amended (env : Env) (st0 : PState) (k : Nat) (e : String)
    (hk : k < st0.songs.length)
    (hmiss : ¬ cacheHit (partialFetch env st0 k).st k)
    (herr : (itemResult env (partialFetch env st0 k).st k).2.1 = .error e) :
    (k, e) ∈ (fetch_album_info env st0).errors ∧
    (fetch_album_info env st0).completed = st0.songs.length ∧
    (fetch_album_info env st0).st.songs.length = st0.songs.length ∧
    fetch_album_info env st0 =
      fetchLoop env st0.songs.length
        (fetchStep env st0.songs.length (partialFetch env st0 k) k)
        (List.range' (k + 1) (st0.songs.length - (k + 1))) ∧
    ((songAt (fetch_album_info env st0).st k).albumName = (songAt st0 k).albumName ∨
      ((songAt st0 k).artistName = "Release" ∧
        ∃ alb, (songAt (fetch_album_info env st0).st k).albumName = some alb)) := by
  set N := st0.songs.length with hN
  have hdec : fetch_album_info env st0 =
      fetchLoop env N (partialFetch env st0 (k + 1)) (List.range' (k + 1) (N - (k + 1))) :=
    fetch_decompose env st0 (k + 1) (by omega)
  have hsucc : partialFetch env st0 (k + 1) =
      fetchStep env N (partialFetch env st0 k) k := partialFetch_succ env st0 k
  have hproc := fetchStep_proc env N (partialFetch env st0 k) k hmiss
  have hfrozen : songAt (fetch_album_info env st0).st k =
      songAt (partialFetch env st0 (k + 1)).st k := by
    rw [hdec]
    exact fetchLoop_songAt_frozen env N _ _ k
      (fun l hl => by rw [List.mem_range'_1] at hl; omega)
  have hlenK : k < (partialFetch env st0 k).st.songs.length := by
    rw [partialFetch_length]
    exact hk
  have hbase : songAt (partialFetch env st0 k).st k = songAt st0 k :=
    partialFetch_songAt_le env st0 k k (le_refl k)
  have hstep_song : songAt (partialFetch env st0 (k + 1)).st k =
      songAt (itemResult env (partialFetch env st0 k).st k).1 k := by
    rw [hsucc, hproc]
    dsimp only
    cases hres : (itemResult env (partialFetch env st0 k).st k).2.1 with
    | error e' => rfl
    | ok b =>
      exfalso
      rw [herr] at hres
      exact Except.noConfusion hres
  refine ⟨?_, ?_, ?_, ?_, ?_⟩
  · rw [hdec]
    apply fetchLoop_errors_mono
    rw [hsucc, hproc]
    dsimp only
    rw [herr]
    exact List.mem_append_right _ (List.mem_singleton_self _)
  · exact partialFetch_completed env st0 N
  · exact partialFetch_length env st0 N
  · rw [hdec, hsucc]
  · have hdisj := ir_error_album env (partialFetch env st0 k).st k hlenK e herr
    rw [hbase] at hdisj
    rw [hfrozen, hstep_song]
    exact hdisj

/-- C2 witness: the amended theorem applied to the concrete `Release` run. -/
theorem C2_witness :
    0 < (initState [exSongRelease] []).songs.length ∧
      (0, "IndexError") ∈ (fetch_album_info envRelease (initState [exSongRelease] [])).errors :=
  ⟨by decide,
    (C2_amended envRelease (initState [exSongRelease] []) 0 "IndexError"
      (by decide) (by decide) (by rfl)).1⟩

/-! ## C10: the reserved sentinel key shares the id namespace -/

theorem songAt_eq_of_songs {st1 st2 : PState} (h : st1.songs = st2.songs) (j : Nat) :
    songAt st1 j = songAt st2 j := by
  simp [songAt, h]

theorem fetchStep_hit_songs_arr (env : Env) (T : Nat) (acc : FetchAcc) (l : Nat)
    (u : List Upload)
    (h : cacheHit acc.st l)
    (hv : cacheLookup acc.st.api_cache (songAt acc.st l).id = some (.arr u)) :
    (fetchStep env T acc l).st.songs = acc.st.songs := by
  unfold fetchStep
  dsimp only
  rw [if_pos h, hv]
  simp [cacheHasKey]

theorem fetchStep_keeps_entry (env : Env) (T : Nat) (acc : FetchAcc) (l : Nat)
    (k : String) (v : CacheVal)
    (hk : ¬ cacheHit acc.st l → k ≠ (songAt acc.st l).id)
    (hv : cacheLookup acc.st.api_cache k = some v) :
    cacheLookup (fetchStep env T acc l).st.api_cache k = some v := by
  by_cases h : cacheHit acc.st l
  · rw [(fetchStep_hit env T acc l h).1]
    exact hv
  · rw [fetchStep_proc env T acc l h]
    dsimp only
    have hkeep := ir_keeps_entry env acc.st l k v (hk h) hv
    cases hres : (itemResult env acc.st l).2.1 with
    | error e => exact hkeep
    | ok b =>
      cases b
      · exact hkeep
      · dsimp only
        split
        · rw [recordSuccess_cache, cacheLookup_insert_ne _ _ _ _ (hk h)]
          exact hkeep
        · exact hkeep

theorem fetchStep_queried_mem (env : Env) (T : Nat) (acc : FetchAcc) (l : Nat)
    (s : String) (hs : s ∈ acc.st.queried_ids) :
    s ∈ (fetchStep env T acc l).st.queried_ids := by
  by_cases h : cacheHit acc.st l
  · rw [(fetchStep_hit env T acc l h).2.1]
    exact hs
  · rw [fetchStep_proc env T acc l h]
    dsimp only
    have hq : (itemResult env acc.st l).1.queried_ids = acc.st.queried_ids :=
      ir_queried env acc.st l
    cases hres : (itemResult env acc.st l).2.1 with
    | error e => rw [hq]; exact hs
    | ok b =>
      cases b
      · rw [hq]; exact hs
      · dsimp only
        split
        · rw [recordSuccess_queried, hq]
          exact List.mem_cons_of_mem _ hs
        · rw [hq]; exact hs

theorem fetchStep_count_calls (env : Env) (T : Nat) (acc : FetchAcc) (l : Nat)
    (s : String) (hs : ¬ cacheHit acc.st l → (songAt acc.st l).id ≠ s) :
    (fetchStep env T acc l).searchCalledIds.count s = acc.searchCalledIds.count s := by
  by_cases h : cacheHit acc.st l
  · rw [(fetchStep_hit env T acc l h).2.2.2.2.2.2]
  · rw [fetchStep_proc env T acc l h]
    dsimp only
    rw [List.count_append]
    cases hcall : (itemResult env acc.st l).2.2 with
    | false => simp
    | true => simp [List.count_cons, hs h]

/-- C10: if the loaded cache contains the sentinel `"library_uploads"` key
(so it is in `queried_ids`), then a Listen whose external id equals
`"library_uploads"` is treated as a cache hit: the Catalog Client is
never queried for that id over the whole run and the Listen's
`albumName`/`artistName` are left unchanged, because the cached snapshot
is a list and the `'albumName' in cached_data` membership tests fail on
it. -/
theorem C10_sentinel_hit (env : Env) (st0 : PState) (i : Nat) (ups : List Upload)
    (hc : cacheLookup st0.api_cache "library_uploads" = some (.arr ups))
    (hq : "library_uploads" ∈ st0.queried_ids)
    (hid : (songAt st0 i).id = "library_uploads") :
    (songAt (fetch_album_info env st0).st i).albumName = (songAt st0 i).albumName ∧
    (songAt (fetch_album_info env st0).st i).artistName = (songAt st0 i).artistName ∧
    (fetch_album_info env st0).searchCalledIds.count "library_uploads" = 0 := by
  set N := st0.songs.length with hN
  have hfa : fetch_album_info env st0 = fetchLoop env N (initAcc st0) (List.range N) := rfl
  have hfinal :
      (fun acc : FetchAcc =>
        cacheLookup acc.st.api_cache "library_uploads" = some (.arr ups) ∧
        "library_uploads" ∈ acc.st.queried_ids ∧
        songAt acc.st i = songAt st0 i ∧
        acc.searchCalledIds.count "library_uploads" = 0 ∧
        (∀ m, (songAt acc.st m).id = (songAt st0 m).id))
        (fetchLoop env N (initAcc st0) (List.range N)) := by
    refine fetchLoop_inv env N
      (fun acc : FetchAcc =>
        cacheLookup acc.st.api_cache "library_uploads" = some (.arr ups) ∧
        "library_uploads" ∈ acc.st.queried_ids ∧
        songAt acc.st i = songAt st0 i ∧
        acc.searchCalledIds.count "library_uploads" = 0 ∧
        (∀ m, (songAt acc.st m).id = (songAt st0 m).id))
      (List.range N) (initAcc st0) ?_ ?_
    · intro a l _ ha
      obtain ⟨ha1, ha2, ha3, ha4, ha5⟩ := ha
      have hknown : ¬ cacheHit a.st l → (songAt a.st l).id ≠ "library_uploads" := by
        intro hnc he
        apply hnc
        refine ⟨?_, ?_, ?_⟩
        · rw [he]
          decide
        · rw [he]
          exact ha2
        · rw [he, ha1]
          rfl
      refine ⟨?_, ?_, ?_, ?_, ?_⟩
      · exact fetchStep_keeps_entry env N a l _ _ (fun hnc => (hknown hnc).symm) ha1
      · exact fetchStep_queried_mem env N a l _ ha2
      · by_cases hli : l = i
        · subst hli
          by_cases hcH : cacheHit a.st l
          · have hvl : cacheLookup a.st.api_cache (songAt a.st l).id = some (.arr ups) := by
              rw [ha5 l, hid]
              exact ha1
            rw [songAt_eq_of_songs (fetchStep_hit_songs_arr env N a l ups hcH hvl) l]
            exact ha3
          · exact absurd (by rw [ha5 l, hid]) (hknown hcH)
        · rw [fetchStep_songAt_ne env N a l i hli]
          exact ha3
      · rw [fetchStep_count_calls env N a l _ hknown]
        exact ha4
      · intro m
        exact ((fetchStep_id_lib env N a l m).1).trans (ha5 m)
    · exact ⟨hc, hq, rfl, rfl, fun m => rfl⟩
  rw [hfa]
  exact ⟨by rw [hfinal.2.2.1], by rw [hfinal.2.2.1], hfinal.2.2.2.1⟩

/-- C10 witness: the sentinel-id Listen is skipped untouched in a concrete
run. -/
theorem C10_witness :
    cacheLookup exCacheSentinel "library_uploads" =
        some (.arr [⟨"v1", ["AA"], .flat "AL"⟩]) ∧
      (songAt (fetch_album_info envAlb (initState [exSongSentinel] exCacheSentinel)).st 0).albumName =
        (songAt (initState [exSongSentinel] exCacheSentinel) 0).albumName ∧
      (fetch_album_info envAlb (initState [exSongSentinel] exCacheSentinel)).searchCalledIds.count
          "library_uploads" = 0 :=
  ⟨by decide,
    (C10_sentinel_hit envAlb (initState [exSongSentinel] exCacheSentinel) 0
      [⟨"v1", ["AA"], .flat "AL"⟩] (by decide) (by decide) (by decide)).1,
    (C10_sentinel_hit envAlb (initState [exSongSentinel] exCacheSentinel) 0
      [⟨"v1", ["AA"], .flat "AL"⟩] (by decide) (by decide) (by decide)).2.2⟩

/-! ## C9: unauthenticated runs and library uploads -/

theorem fetchStep_libcalls_unauth (env : Env) (T : Nat) (acc : FetchAcc) (l : Nat)
    (hna : env.authenticated = false) :
    (fetchStep env T acc l).st.libraryFetchCalls = acc.st.libraryFetchCalls := by
  by_cases h : cacheHit acc.st l
  · exact (fetchStep_hit env T acc l h).2.2.2.1
  · rw [fetchStep_proc env T acc l h]
    dsimp only
    have hl : (itemResult env acc.st l).1.libraryFetchCalls = acc.st.libraryFetchCalls :=
      ir_unauth_libcalls env acc.st l hna
    cases hres : (itemResult env acc.st l).2.1 with
    | error e => exact hl
    | ok b =>
      cases b
      · exact hl
      · dsimp only
        split
        · rw [recordSuccess_libcalls]
          exact hl
        · exact hl

theorem fetchStep_keeps_none (env : Env) (T : Nat) (acc : FetchAcc) (l : Nat)
    (k : String)
    (hna : env.authenticated = false)
    (hk : k ≠ (songAt acc.st l).id)
    (hv : cacheLookup acc.st.api_cache k = none) :
    cacheLookup (fetchStep env T acc l).st.api_cache k = none := by
  by_cases h : cacheHit acc.st l
  · rw [(fetchStep_hit env T acc l h).1]
    exact hv
  · rw [fetchStep_proc env T acc l h]
    dsimp only
    have hkeep := ir_unauth_none_entry env acc.st l k hna hk hv
    cases hres : (itemResult env acc.st l).2.1 with
    | error e => exact hkeep
    | ok b =>
      cases b
      · exact hkeep
      · dsimp only
        split
        · rw [recordSuccess_cache, cacheLookup_insert_ne _ _ _ _ hk]
          exact hkeep
        · exact hkeep

/-- C9 counterexample: unauthenticated, with a regular Listen and a
library-upload Listen sharing the id `"x"` that is absent from the
persisted cache.  The regular Listen resolves by search and caches the id,
so the later library-upload Listen is served from the run cache and ends
with `albumName` set — the claim's "fails resolution and is left with
albumName unset" does not hold for it. -/
theorem C9_counterexample :
    envUnauth.authenticated = false ∧
    cacheLookup (initState [exSongA, exSongLib] []).api_cache "x" = none ∧
    (songAt (initState [exSongA, exSongLib] []) 1).isLibraryUpload = true ∧
    (songAt (initState [exSongA, exSongLib] []) 1).id = "x" ∧
    (songAt (fetch_album_info envUnauth (initState [exSongA, exSongLib] [])).st 1).albumName =
      some "Alb" := by
  refine ⟨rfl, by decide, by decide, by decide, by decide⟩

/-- C9 (amended): when the run is unauthenticated, `get_library_uploads`
returns the empty list without invoking the library-snapshot operation,
and every library-upload Listen whose id is not in the cache or recorded
as queried at run start — and is not shared with any other Listen — fails
resolution and keeps its `albumName` unchanged (unset for a parsed
Listen).  (A Listen sharing its id with a regular Listen can still be
resolved from the run cache, as the counterexample shows.) -/
theorem C9_amended (env : Env) (st0 : PState) (i : Nat)
    (hna : env.authenticated = false)
    (hlib : (songAt st0 i).isLibraryUpload = true)
    (hce : cacheLookup st0.api_cache (songAt st0 i).id = none)
    (huniq : ∀ l, l ≠ i → (songAt st0 l).id ≠ (songAt st0 i).id) :
    (∀ st, get_library_uploads env st = (st, .arr [])) ∧
    (fetch_album_info env st0).st.libraryFetchCalls = st0.libraryFetchCalls ∧
    (songAt (fetch_album_info env st0).st i).albumName = (songAt st0 i).albumName := by
  set N := st0.songs.length with hN
  have hfa : fetch_album_info env st0 = fetchLoop env N (initAcc st0) (List.range N) := rfl
  have hfinal :
      (fun acc : FetchAcc =>
        cacheLookup acc.st.api_cache (songAt st0 i).id = none ∧
        songAt acc.st i = songAt st0 i ∧
        acc.st.libraryFetchCalls = st0.libraryFetchCalls ∧
        (∀ m, (songAt acc.st m).id = (songAt st0 m).id ∧
          (songAt acc.st m).isLibraryUpload = (songAt st0 m).isLibraryUpload))
        (fetchLoop env N (initAcc st0) (List.range N)) := by
    refine fetchLoop_inv env N
      (fun acc : FetchAcc =>
        cacheLookup acc.st.api_cache (songAt st0 i).id = none ∧
        songAt acc.st i = songAt st0 i ∧
        acc.st.libraryFetchCalls = st0.libraryFetchCalls ∧
        (∀ m, (songAt acc.st m).id = (songAt st0 m).id ∧
          (songAt acc.st m).isLibraryUpload = (songAt st0 m).isLibraryUpload))
      (List.range N) (initAcc st0) ?_ ?_
    · intro a l _ ha
      obtain ⟨ha1, ha2, ha3, ha4⟩ := ha
      by_cases hli : l = i
      · subst hli
        have hnc : ¬ cacheHit a.st l := by
          intro hcH
          obtain ⟨h1, h2, h3⟩ := hcH
          rw [(ha4 l).1, ha1] at h3
          simp at h3
        have hlibA : (songAt a.st l).isLibraryUpload = true := by
          rw [(ha4 l).2]
          exact hlib
        have hir := ir_unauth_lib_song env a.st l hna hlibA
        have hstep := fetchStep_proc env N a l hnc
        rw [hstep]
        simp only [hir]
        exact ⟨ha1, ha2, ha3, ha4⟩
      · refine ⟨?_, ?_, ?_, ?_⟩
        · by_cases hnc : cacheHit a.st l
          · rw [(fetchStep_hit env N a l hnc).1]
            exact ha1
          · have hkne : (songAt st0 i).id ≠ (songAt a.st l).id := by
              rw [(ha4 l).1]
              exact fun he => (huniq l hli) he.symm
            exact fetchStep_keeps_none env N a l _ hna hkne ha1
        · rw [fetchStep_songAt_ne env N a l i hli]
          exact ha2
        · rw [fetchStep_libcalls_unauth env N a l hna]
          exact ha3
        · intro m
          have h := fetchStep_id_lib env N a l m
          exact ⟨h.1.trans (ha4 m).1, h.2.trans (ha4 m).2⟩
    · exact ⟨hce, rfl, rfl, fun m => ⟨rfl, rfl⟩⟩
  refine ⟨fun st => glu_unauth env st hna, ?_, ?_⟩
  · rw [hfa]
    exact hfinal.2.2.1
  · rw [hfa, hfinal.2.1]

theorem exUniqLib :
    ∀ l, l ≠ 0 → (songAt (initState [exSongLib] []) l).id ≠
      (songAt (initState [exSongLib] []) 0).id := by
  intro l hl
  cases l with
  | zero => exact absurd rfl hl
  | succ n =>
    have hdef : songAt (initState [exSongLib] []) (n + 1) = default := by
      simp [songAt, initState, List.getD]
    rw [hdef]
    decide

/-- C9 witness: an unauthenticated run with one unmatched library-upload
Listen leaves it unresolved and never fetches the snapshot. -/
theorem C9_witness :
    envUnauth.authenticated = false ∧
      (songAt (fetch_album_info envUnauth (initState [exSongLib] [])).st 0).albumName =
        (songAt (initState [exSongLib] []) 0).albumName ∧
      (fetch_album_info envUnauth (initState [exSongLib] [])).st.libraryFetchCalls =
        (initState [exSongLib] []).libraryFetchCalls :=
  ⟨rfl,
    (C9_amended envUnauth (initState [exSongLib] []) 0 rfl (by decide) (by decide)
      exUniqLib).2.2,
    (C9_amended envUnauth (initState [exSongLib] []) 0 rfl (by decide) (by decide)
      exUniqLib).2.1⟩

/-! ## C8: progress reporting -/

/-- C8 counterexample, two runs.  (1) A single Listen served by the
run-start cache check: `completed_items` reaches the total but the
`continue` skips the progress print, so no report is emitted after the
final item.  (2) Ten Listens whose searches all return album-less results:
every resolution fails (all `albumName`s stay unset) yet the emitted
report's third figure is 10 — the API-request count, not the
successful-resolution count (0). -/
theorem C8_counterexample :
    ((initState [exSongA] exCacheX).songs.length = 1 ∧
      (fetch_album_info envNoResults (initState [exSongA] exCacheX)).reports = []) ∧
    ((fetch_album_info envNoAlbum (initState (List.replicate 10 exSongA) [])).reports =
        [⟨10, 10, 10⟩] ∧
      ∀ sng ∈ (fetch_album_info envNoAlbum (initState (List.replicate 10 exSongA) [])).st.songs,
        sng.albumName = none) := by
  exact ⟨⟨by decide, by decide⟩, by decide, by decide⟩

/-- C8 (amended): every emitted progress report states the run's total and
a completed count that is a multiple of 10 or the total, and its third
figure is the cumulative count of successful API requests (not of
successful resolutions); a report is emitted after the final item whenever
that item is not served by the run-start cache check (a cache-hit item
counts as completed but skips the report, as the counterexample shows). -/
theorem C8_amended (env : Env) (st0 : PState) :
    (∀ r ∈ (fetch_album_info env st0).reports,
      r.total = st0.songs.length ∧
        (r.completed % 10 = 0 ∨ r.completed = st0.songs.length)) ∧
    (0 < st0.songs.length →
      ¬ cacheHit (partialFetch env st0 (st0.songs.length - 1)).st (st0.songs.length - 1) →
      (fetch_album_info env st0).reports =
        (partialFetch env st0 (st0.songs.length - 1)).reports ++
          [⟨st0.songs.length, st0.songs.length,
            (fetch_album_info env st0).st.successful_api_count⟩]) := by
  have hrep : ∀ n, ∀ r ∈ (partialFetch env st0 n).reports,
      r.total = st0.songs.length ∧
        (r.completed % 10 = 0 ∨ r.completed = st0.songs.length) := by
    intro n
    induction n with
    | zero =>
      intro r hr
      exact absurd hr (by simp [partialFetch, fetchLoop, initAcc])
    | succ n ih =>
      intro r hr
      rw [partialFetch_succ] at hr
      by_cases h : cacheHit (partialFetch env st0 n).st n
      · rw [(fetchStep_hit env _ _ n h).2.2.2.2.1] at hr
        exact ih r hr
      · rw [fetchStep_proc env _ _ n h] at hr
        dsimp only at hr
        rw [partialFetch_completed] at hr
        by_cases hcond : (n + 1) % 10 = 0 ∨ n + 1 = st0.songs.length
        · rw [if_pos hcond] at hr
          rcases List.mem_append.mp hr with h1 | h2
          · exact ih r h1
          · rw [List.mem_singleton] at h2
            subst h2
            exact ⟨rfl, hcond⟩
        · rw [if_neg hcond] at hr
          exact ih r hr
  refine ⟨hrep st0.songs.length, ?_⟩
  intro hpos hnc
  have hN1 : st0.songs.length - 1 + 1 = st0.songs.length := by omega
  have hfin : fetch_album_info env st0 =
      fetchStep env st0.songs.length (partialFetch env st0 (st0.songs.length - 1))
        (st0.songs.length - 1) := by
    conv_lhs =>
      rw [show fetch_album_info env st0 = partialFetch env st0 st0.songs.length from rfl,
        ← hN1, partialFetch_succ]
  rw [hfin, fetchStep_proc env _ _ _ hnc]
  dsimp only
  rw [partialFetch_completed]
  have hcond : (st0.songs.length - 1 + 1) % 10 = 0 ∨
      st0.songs.length - 1 + 1 = st0.songs.length := Or.inr hN1
  rw [if_pos hcond, hN1]

/-- C8 witness: the amended theorem applied to a run whose single item is
not a cache hit. -/
theorem C8_witness :
    0 < (initState [exSongA] []).songs.length ∧
      (fetch_album_info envNoResults (initState [exSongA] [])).reports =
        (partialFetch envNoResults (initState [exSongA] [])
            ((initState [exSongA] []).songs.length - 1)).reports ++
          [⟨(initState [exSongA] []).songs.length, (initState [exSongA] []).songs.length,
            (fetch_album_info envNoResults (initState [exSongA] [])).st.successful_api_count⟩] :=
  ⟨by decide,
    (C8_amended envNoResults (initState [exSongA] [])).2 (by decide) (by decide)⟩

/-! ## C1: id-level deduplication of catalog queries -/

/-- C1 counterexample: two Listens share the non-empty id `"x"`, and the
search returns no results for both, so neither resolution succeeds and no
cache entry is written — the Catalog Client is invoked twice for the id. -/
theorem C1_counterexample :
    (songAt (initState [exSongA, exSongB] []) 0).id = "x" ∧
    (songAt (initState [exSongA, exSongB] []) 1).id = "x" ∧
    (fetch_album_info envNoResults (initState [exSongA, exSongB] [])).searchCalledIds.count "x"
      = 2 := by
  exact ⟨by decide, by decide, by decide⟩

theorem fetchLoop_length (env : Env) (T : Nat) (idxs : List Nat) (acc : FetchAcc) :
    (fetchLoop env T acc idxs).st.songs.length = acc.st.songs.length := by
  induction idxs generalizing acc with
  | nil => rfl
  | cons x xs ih =>
    rw [fetchLoop]
    rw [List.foldl_cons]
    have h := ih (fetchStep env T acc x)
    rw [fetchLoop] at h
    rw [h, fetchStep_length]

/-- The state of affairs after an id has been resolved and cached: the
cache entry and the queried-id record survive, the resolved song is
frozen, no further Catalog Client call is made for the id, and ids are
the parse-time ones. -/
def cacheStable (sid : String) (v : CacheVal) (sJ : Song) (j c : Nat) (st0 : PState)
    (acc : FetchAcc) : Prop :=
  cacheLookup acc.st.api_cache sid = some v ∧
  sid ∈ acc.st.queried_ids ∧
  songAt acc.st j = sJ ∧
  acc.searchCalledIds.count sid = c ∧
  (∀ m, (songAt acc.st m).id = (songAt st0 m).id)

theorem cacheStable_step (env : Env) (T : Nat) (st0 : PState) (sid : String) (v : CacheVal)
    (sJ : Song) (j c : Nat) (hsid : sid ≠ "")
    (acc : FetchAcc) (l : Nat) (hlj : l ≠ j)
    (hp : cacheStable sid v sJ j c st0 acc) :
    cacheStable sid v sJ j c st0 (fetchStep env T acc l) := by
  obtain ⟨hp1, hp2, hp3, hp4, hp5⟩ := hp
  have hguard : ¬ cacheHit acc.st l → (songAt acc.st l).id ≠ sid := by
    intro hnc he
    exact hnc ⟨by rw [he]; exact hsid, by rw [he]; exact hp2, by rw [he, hp1]; rfl⟩
  refine ⟨?_, ?_, ?_, ?_, ?_⟩
  · exact fetchStep_keeps_entry env T acc l sid v (fun hnc => Ne.symm (hguard hnc)) hp1
  · exact fetchStep_queried_mem env T acc l sid hp2
  · rw [fetchStep_songAt_ne env T acc l j hlj]
    exact hp3
  · rw [fetchStep_count_calls env T acc l sid hguard]
    exact hp4
  · intro m
    exact ((fetchStep_id_lib env T acc l m).1).trans (hp5 m)

/-- C1 (amended): if two Listens at positions `j < k` share a non-empty
external id, no earlier Listen carries that id, and the resolution of
item `j` succeeds (it is processed, not served from a pre-existing cache
entry, and returns success), then over the whole enrichment pass the
Catalog Client's search is invoked at most once for that id, and both
Listens end the run with identical `albumName`/`artistName` values.  (As
the counterexample shows, when every resolution of the id fails the
client is re-queried at each occurrence, so the original "at most once"
claim does not hold unconditionally.) -/
theorem C1_amended (env : Env) (st0 : PState) (j k : Nat) (sid : String)
    (hjk : j < k) (hk : k < st0.songs.length) (hsid : sid ≠ "")
    (hj_id : (songAt st0 j).id = sid) (hk_id : (songAt st0 k).id = sid)
    (hfirst : ∀ l, l < j → (songAt st0 l).id ≠ sid)
    (hmiss : ¬ cacheHit (partialFetch env st0 j).st j)
    (hok : (itemResult env (partialFetch env st0 j).st j).2.1 = .ok true) :
    (fetch_album_info env st0).searchCalledIds.count sid ≤ 1 ∧
    (songAt (fetch_album_info env st0).st k).albumName =
      (songAt (fetch_album_info env st0).st j).albumName ∧
    (songAt (fetch_album_info env st0).st k).artistName =
      (songAt (fetch_album_info env st0).st j).artistName := by
  have hidJ : (songAt (partialFetch env st0 j).st j).id = sid := by
    rw [partialFetch_songAt_le env st0 j j (le_refl j), hj_id]
  have hstep := fetchStep_proc env st0.songs.length (partialFetch env st0 j) j hmiss
  have hst2 : (partialFetch env st0 (j + 1)).st =
      recordSuccess (itemResult env (partialFetch env st0 j).st j).1 sid
        (.obj [("albumName",
                 ((songAt (itemResult env (partialFetch env st0 j).st j).1 j).albumName).getD ""),
               ("artistName",
                 (songAt (itemResult env (partialFetch env st0 j).st j).1 j).artistName)]) := by
    rw [partialFetch_succ, hstep]
    dsimp only
    rw [hok]
    dsimp only
    rw [hidJ, if_pos hsid]
  have hcalls1 : (partialFetch env st0 (j + 1)).searchCalledIds =
      (partialFetch env st0 j).searchCalledIds ++
        (if (itemResult env (partialFetch env st0 j).st j).2.2 then [sid] else []) := by
    rw [partialFetch_succ, hstep]
    dsimp only
    rw [hidJ]
  have hlenJ : j < (partialFetch env st0 j).st.songs.length := by
    rw [partialFetch_length]
    omega
  obtain ⟨x, hx⟩ := Option.isSome_iff_exists.mp
    (ir_ok_album env (partialFetch env st0 j).st j hlenJ hok)
  have hcount0 : ∀ n, n ≤ j → (partialFetch env st0 n).searchCalledIds.count sid = 0 := by
    intro n
    induction n with
    | zero => intro _; rfl
    | succ m ih =>
      intro hn
      have hside : ¬ cacheHit (partialFetch env st0 m).st m →
          (songAt (partialFetch env st0 m).st m).id ≠ sid := by
        intro _
        rw [(partialFetch_id_lib env st0 m m).1]
        exact hfirst m (by omega)
      rw [partialFetch_succ, fetchStep_count_calls env _ _ m sid hside]
      exact ih (by omega)
  have hcount1 : (partialFetch env st0 (j + 1)).searchCalledIds.count sid ≤ 1 := by
    rw [hcalls1, List.count_append, hcount0 j (le_refl j)]
    cases (itemResult env (partialFetch env st0 j).st j).2.2
    · simp
    · simp [List.count_cons]
  have hPJ1 : cacheStable sid
      (.obj [("albumName",
               ((songAt (itemResult env (partialFetch env st0 j).st j).1 j).albumName).getD ""),
             ("artistName",
               (songAt (itemResult env (partialFetch env st0 j).st j).1 j).artistName)])
      (songAt (itemResult env (partialFetch env st0 j).st j).1 j) j
      ((partialFetch env st0 (j + 1)).searchCalledIds.count sid) st0
      (partialFetch env st0 (j + 1)) := by
    refine ⟨?_, ?_, ?_, rfl, ?_⟩
    · rw [hst2, recordSuccess_cache, cacheLookup_insert_self]
    · rw [hst2, recordSuccess_queried]
      exact List.mem_cons_self _ _
    · rw [hst2]
      exact songAt_recordSuccess _ _ _ j
    · intro m
      exact (partialFetch_id_lib env st0 (j + 1) m).1
  have hdec1 : fetch_album_info env st0 =
      fetchLoop env st0.songs.length (partialFetch env st0 (j + 1))
        (List.range' (j + 1) (st0.songs.length - (j + 1))) :=
    fetch_decompose env st0 (j + 1) (by omega)
  have hsplit : List.range' (j + 1) (st0.songs.length - (j + 1)) =
      List.range' (j + 1) (k - (j + 1)) ++
        (k :: List.range' (k + 1) (st0.songs.length - (k + 1))) := by
    have h1 := List.range'_append (j + 1) (k - (j + 1)) (st0.songs.length - k) 1
    simp only [Nat.one_mul] at h1
    have h2 : (j + 1) + (k - (j + 1)) = k := by omega
    have h3 : (st0.songs.length - k) + (k - (j + 1)) = st0.songs.length - (j + 1) := by omega
    rw [h2, h3] at h1
    rw [← h1]
    congr 1
    have h4 : st0.songs.length - k = (st0.songs.length - (k + 1)) + 1 := by omega
    rw [h4, List.range'_succ]
  have hPK : cacheStable sid
      (.obj [("albumName",
               ((songAt (itemResult env (partialFetch env st0 j).st j).1 j).albumName).getD ""),
             ("artistName",
               (songAt (itemResult env (partialFetch env st0 j).st j).1 j).artistName)])
      (songAt (itemResult env (partialFetch env st0 j).st j).1 j) j
      ((partialFetch env st0 (j + 1)).searchCalledIds.count sid) st0
      (fetchLoop env st0.songs.length (partialFetch env st0 (j + 1))
        (List.range' (j + 1) (k - (j + 1)))) := by
    refine fetchLoop_inv env st0.songs.length _ _ _ ?_ hPJ1
    intro a l hl hp
    refine cacheStable_step env _ st0 sid _ _ j _ hsid a l ?_ hp
    rw [List.mem_range'_1] at hl
    omega
  have hidK : (songAt (fetchLoop env st0.songs.length (partialFetch env st0 (j + 1))
      (List.range' (j + 1) (k - (j + 1)))).st k).id = sid := by
    rw [hPK.2.2.2.2 k, hk_id]
  have hch : cacheHit (fetchLoop env st0.songs.length (partialFetch env st0 (j + 1))
      (List.range' (j + 1) (k - (j + 1)))).st k := by
    refine ⟨?_, ?_, ?_⟩
    · rw [hidK]
      exact hsid
    · rw [hidK]
      exact hPK.2.1
    · rw [hidK, hPK.1]
      rfl
  have hlenK : k < (fetchLoop env st0.songs.length (partialFetch env st0 (j + 1))
      (List.range' (j + 1) (k - (j + 1)))).st.songs.length := by
    rw [fetchLoop_length, partialFetch_length]
    exact hk
  have hsongK : songAt (fetchStep env st0.songs.length
      (fetchLoop env st0.songs.length (partialFetch env st0 (j + 1))
        (List.range' (j + 1) (k - (j + 1)))) k).st k =
      { songAt (fetchLoop env st0.songs.length (partialFetch env st0 (j + 1))
          (List.range' (j + 1) (k - (j + 1)))).st k with
        albumName :=
          some (((songAt (itemResult env (partialFetch env st0 j).st j).1 j).albumName).getD "")
        artistName := (songAt (itemResult env (partialFetch env st0 j).st j).1 j).artistName } := by
    apply fetchStep_hit_entry env st0.songs.length _ k _ _ hch hlenK
    rw [hidK]
    exact hPK.1
  have hPK1 := cacheStable_step env st0.songs.length st0 sid _ _ j _ hsid _ k
    (by omega) hPK
  have hfink : fetch_album_info env st0 =
      fetchLoop env st0.songs.length
        (fetchStep env st0.songs.length
          (fetchLoop env st0.songs.length (partialFetch env st0 (j + 1))
            (List.range' (j + 1) (k - (j + 1)))) k)
        (List.range' (k + 1) (st0.songs.length - (k + 1))) := by
    rw [hdec1, hsplit, fetchLoop_append]
    rfl
  have hPfin : cacheStable sid
      (.obj [("albumName",
               ((songAt (itemResult env (partialFetch env st0 j).st j).1 j).albumName).getD ""),
             ("artistName",
               (songAt (itemResult env (partialFetch env st0 j).st j).1 j).artistName)])
      (songAt (itemResult env (partialFetch env st0 j).st j).1 j) j
      ((partialFetch env st0 (j + 1)).searchCalledIds.count sid) st0
      (fetch_album_info env st0) ∧
      songAt (fetch_album_info env st0).st k =
        songAt (fetchStep env st0.songs.length
          (fetchLoop env st0.songs.length (partialFetch env st0 (j + 1))
            (List.range' (j + 1) (k - (j + 1)))) k).st k := by
    rw [hfink]
    refine fetchLoop_inv env st0.songs.length
      (fun acc => cacheStable sid
        (.obj [("albumName",
                 ((songAt (itemResult env (partialFetch env st0 j).st j).1 j).albumName).getD ""),
               ("artistName",
                 (songAt (itemResult env (partialFetch env st0 j).st j).1 j).artistName)])
        (songAt (itemResult env (partialFetch env st0 j).st j).1 j) j
        ((partialFetch env st0 (j + 1)).searchCalledIds.count sid) st0 acc ∧
        songAt acc.st k =
          songAt (fetchStep env st0.songs.length
            (fetchLoop env st0.songs.length (partialFetch env st0 (j + 1))
              (List.range' (j + 1) (k - (j + 1)))) k).st k)
      _ _ ?_ ⟨hPK1, rfl⟩
    intro a l hl hp
    rw [List.mem_range'_1] at hl
    refine ⟨cacheStable_step env _ st0 sid _ _ j _ hsid a l (by omega) hp.1, ?_⟩
    rw [fetchStep_songAt_ne env _ a l k (by omega)]
    exact hp.2
  refine ⟨?_, ?_, ?_⟩
  · rw [hPfin.1.2.2.2.1]
    exact hcount1
  · rw [hPfin.2, hsongK, hPfin.1.2.2.1]
    dsimp only
    rw [hx]
    rfl
  · rw [hPfin.2, hsongK, hPfin.1.2.2.1]

/-- C1 witness: the amended theorem applied to the two-Listen concrete run
whose first resolution succeeds; both end with the same album and one
search call is made for the shared id. -/
theorem C1_witness :
    (0:Nat) < 1 ∧ 1 < (initState [exSongA, exSongB] []).songs.length ∧
      (fetch_album_info envAlb (initState [exSongA, exSongB] [])).searchCalledIds.count "x"
        ≤ 1 ∧
      (songAt (fetch_album_info envAlb (initState [exSongA, exSongB] [])).st 1).albumName =
        (songAt (fetch_album_info envAlb (initState [exSongA, exSongB] [])).st 0).albumName :=
  ⟨Nat.one_pos, by decide,
    (C1_amended envAlb (initState [exSongA, exSongB] []) 0 1 "x" Nat.one_pos (by decide)
      (by decide) (by decide) (by decide) (fun l hl => absurd hl (by omega)) (by decide)
      (by rfl)).1,
    (C1_amended envAlb (initState [exSongA, exSongB] []) 0 1 "x" Nat.one_pos (by decide)
      (by decide) (by decide) (by decide) (fun l hl => absurd hl (by omega)) (by decide)
      (by rfl)).2.1⟩

end YTM
